import Mathlib

/-!
Verification development for the suggestion-generation pipeline of the
writing-app repository.

The TypeScript sources are shallowly embedded as executable Lean functions:

* `CacheUtils.SuggestionCache` embeds the LRU/TTL/fuzzy cache of
  `src/lib/cache-utils.ts` (provided as `src/unnamed/part_009`);
* `DeepseekConfig.getContextualFallback` embeds the fallback generator of
  `src/lib/deepseek-config.ts`, with the `Math.random()` draw made an
  explicit parameter;
* `GenerateSuggestionRoute.POST` embeds the request handler of
  `src/app/api/generate-suggestion/route.ts` (HTTP status and the
  `suggestion` / `error` / `fallback` payload fields; the `timeTaken` and
  `analysis` metadata fields are not inspected by any property below);
* `EditorHook` embeds the error/backoff handling of the editor page client
  controller (`src/unnamed/part_001`);
* `CleanCanvas` embeds the request state machine of
  `src/app/editor/clean-canvas/page.tsx` as an event-driven transition
  system (single-threaded event-loop scheduling, as in the browser);
  because the page's timer callbacks are React closures, the guard flags
  they read are the values captured at the render that created them, and
  each trigger event carries those captured values explicitly.

JavaScript timestamps (`Date.now()`) are passed as explicit `now : Nat`
arguments.  JavaScript `number` arithmetic on similarity scores is embedded
as exact rational arithmetic (`Rat`); all rationals are written with
`mkRat` so that concrete runs evaluate inside the kernel.

String primitives of JavaScript are re-implemented on `List Char`
(`js*` helpers below) because the corresponding Lean library functions do
not evaluate under kernel reduction; each helper documents the JavaScript
operation it mirrors.
-/

/-- `c.isWhitespace`, mirroring the JavaScript `\s` character class
(restricted to the ASCII whitespace that `Char.isWhitespace` covers). -/
def jsIsWs (c : Char) : Bool := c.isWhitespace

/-- JavaScript `String.prototype.toLowerCase` (character-wise). -/
def jsToLower (s : String) : String := ⟨s.data.map Char.toLower⟩

/-- JavaScript `String.prototype.trim`. -/
def jsTrim (s : String) : String :=
  ⟨((s.data.dropWhile jsIsWs).reverse.dropWhile jsIsWs).reverse⟩

/-- JavaScript `s.slice(-n)`: the last `n` characters of `s` (all of `s`
when it is shorter). -/
def jsTakeRight (n : ℕ) (s : String) : String :=
  ⟨s.data.drop (s.data.length - n)⟩

/-- JavaScript `s.startsWith(p)`. -/
def jsStartsWith (s p : String) : Bool := p.data.isPrefixOf s.data

/-- JavaScript `s.endsWith(p)`. -/
def jsEndsWith (s p : String) : Bool := p.data.isSuffixOf s.data

/-- JavaScript `s.includes(sub)`: substring containment. -/
def jsIncludes (s sub : String) : Bool :=
  (List.range (s.data.length + 1)).any fun i => sub.data.isPrefixOf (s.data.drop i)

/-- JavaScript `s.charAt`-style single-character containment
(`s.includes(c)` for a one-character needle). -/
def jsHasChar (s : String) (c : Char) : Bool := s.data.any fun d => d = c

/-- Single pass collecting maximal non-whitespace runs; `cur` holds the
characters of the current run, reversed. -/
def wsRunsAux (cur : List Char) : List Char → List (List Char)
  | [] => if cur = [] then [] else [cur.reverse]
  | c :: t =>
    if jsIsWs c then
      if cur = [] then wsRunsAux [] t else cur.reverse :: wsRunsAux [] t
    else wsRunsAux (c :: cur) t

/-- The maximal runs of non-whitespace characters of a character list, in
order.  Used to implement `split(/\s+/)`. -/
def wsRuns (l : List Char) : List (List Char) := wsRunsAux [] l

/-- JavaScript `s.split(/\s+/)`: fields separated by maximal whitespace
runs.  A leading (resp. trailing) separator contributes an empty first
(resp. last) field, and `"".split(/\s+/)` is `[""]`. -/
def jsSplitWs (s : String) : List String :=
  match s.data with
  | [] => [""]
  | c :: _ =>
    let core := (wsRuns s.data).map fun cs => (⟨cs⟩ : String)
    let withLead := if jsIsWs c then "" :: core else core
    if jsIsWs (s.data.getLastD c) then withLead ++ [""] else withLead

/-- JavaScript `parts.join(sep)`. -/
def jsJoin (sep : String) : List String → String
  | [] => ""
  | h :: t => t.foldl (fun acc p => acc ++ sep ++ p) h

/-- JavaScript `l.slice(-n)` on arrays: the last `n` elements. -/
def jsSliceLast (n : ℕ) (l : List α) : List α := l.drop (l.length - n)

/-- Specification-level word count of a string: the number of non-empty
`split(/\s+/)` fields.  Used to state the "1 to N words" properties. -/
def wordCount (s : String) : ℕ := ((jsSplitWs s).filter fun w => w ≠ "").length

/-- JavaScript `x || d` on an optional numeric field (`0`, like `null` and
`undefined`, is falsy and falls back to the default). -/
def jsOrNat (o : Option ℕ) (d : ℕ) : ℕ :=
  match o with
  | some n => if n = 0 then d else n
  | none => d

/-- JavaScript `x || d` on an optional string field (the empty string is
falsy and falls back to the default). -/
def jsOrStr (o : Option String) (d : String) : String :=
  match o with
  | some s => if s = "" then d else s
  | none => d

/-- One step of the Levenshtein recurrence: given `f = lev s ·` (the
distances from the tail `s`), compute `lev (a :: s) ·`.  This is the
standard dynamic-programming recurrence of
`SuggestionCache.levenshteinDistance` (deletion / insertion /
substitution, each compared with `Math.min`), computed top-down. -/
def levAux (a : Char) (f : List Char → ℕ) : List Char → ℕ
  | [] => f [] + 1
  | b :: t =>
    min (f (b :: t) + 1) (min (levAux a f t + 1) (f t + if a = b then 0 else 1))

/-- Levenshtein edit distance on character lists, mirroring the DP matrix
of `SuggestionCache.levenshteinDistance` in `cache-utils.ts`. -/
def levDistance : List Char → List Char → ℕ
  | [], t => t.length
  | a :: s, t => levAux a (levDistance s) t

namespace CacheUtils

/-- `CacheItem` of `cache-utils.ts` (specialised to `string` values, the
only instantiation used). -/
structure CacheItem where
  value : String
  expiresAt : ℕ
  lastAccessed : ℕ
deriving Repr, DecidableEq

/-- `CacheConfig` of `cache-utils.ts`. -/
structure CacheConfig where
  maxSize : ℕ
  ttl : ℕ
  fuzzyMatch : Bool
  fuzzyThreshold : ℚ
deriving Repr, DecidableEq

/-- `DEFAULT_CONFIG` of `cache-utils.ts`: 500 items, 1 hour TTL, fuzzy
matching enabled at threshold 0.8. -/
def DEFAULT_CONFIG : CacheConfig :=
  { maxSize := 500, ttl := 1000 * 60 * 60, fuzzyMatch := true, fuzzyThreshold := mkRat 8 10 }

/-- The entries of a JavaScript `Map`, in insertion order. -/
abbrev EntryList := List (String × CacheItem)

/-- JavaScript `Map.prototype.set`: update in place when the key is
present (preserving iteration order), otherwise append. -/
def mapSet (k : String) (v : CacheItem) : EntryList → EntryList
  | [] => [(k, v)]
  | (k', v') :: t => if k' = k then (k, v) :: t else (k', v') :: mapSet k v t

/-- JavaScript `Map.prototype.delete`. -/
def mapDelete (k : String) : EntryList → EntryList
  | [] => []
  | (k', v') :: t => if k' = k then t else (k', v') :: mapDelete k t

/-- JavaScript `Map.prototype.get` (`Map.prototype.has` is `isSome`). -/
def mapFind (k : String) : EntryList → Option CacheItem
  | [] => none
  | (k', v') :: t => if k' = k then some v' else mapFind k t

/-- The `SuggestionCache` class state of `cache-utils.ts`. -/
structure SuggestionCache where
  entries : EntryList
  config : CacheConfig
  hits : ℕ
  misses : ℕ
  lastCleared : Option ℕ
deriving Repr, DecidableEq

namespace SuggestionCache

/-- `new SuggestionCache(config)` with an explicit full configuration. -/
def mkCache (cfg : CacheConfig) : SuggestionCache :=
  { entries := [], config := cfg, hits := 0, misses := 0, lastCleared := none }

/-- `SuggestionCache.normalizeKey`: last 50 characters, lowercased,
trimmed. -/
def normalizeKey (key : String) : String :=
  jsTrim (jsToLower (jsTakeRight 50 key))

/-- `SuggestionCache.cleanExpired` at time `now`: delete every entry with
`expiresAt < now`. -/
def cleanExpired (now : ℕ) (c : SuggestionCache) : SuggestionCache :=
  { c with entries := c.entries.filter fun e => !(e.2.expiresAt < now) }

/-- One iteration of the eviction scan of `SuggestionCache.set`
(`if (!oldest || item.lastAccessed < oldest[1]) oldest = [k, lastAccessed]`). -/
def oldStep (acc : Option (String × ℕ)) (e : String × CacheItem) : Option (String × ℕ) :=
  match acc with
  | none => some (e.1, e.2.lastAccessed)
  | some (k0, t0) =>
    if e.2.lastAccessed < t0 then some (e.1, e.2.lastAccessed) else some (k0, t0)

/-- The loop of `SuggestionCache.set` that finds the least recently
accessed entry. -/
def findOldest (l : EntryList) : Option (String × ℕ) := l.foldl oldStep none

/-- The capacity check of `SuggestionCache.set`
(`if (this.cache.size >= this.config.maxSize)`): delete the least
recently accessed entry when at capacity. -/
def evictIfFull (c : SuggestionCache) : SuggestionCache :=
  if c.config.maxSize ≤ c.entries.length then
    match findOldest c.entries with
    | some (k0, _) => { c with entries := mapDelete k0 c.entries }
    | none => c
  else c

/-- `SuggestionCache.set` at time `now`: clean expired entries, evict the
least recently accessed entry when at capacity, then insert the
normalized key. -/
def set (now : ℕ) (key value : String) (c : SuggestionCache) : SuggestionCache :=
  let c2 := evictIfFull (cleanExpired now c)
  { c2 with
    entries :=
      mapSet (normalizeKey key)
        { value := value, expiresAt := now + c2.config.ttl, lastAccessed := now }
        c2.entries }

/-- A sequence of `set` calls `(time, key, value)`, applied in order. -/
def runSets (c : SuggestionCache) : List (ℕ × String × String) → SuggestionCache
  | [] => c
  | (t, k, v) :: ops => runSets (set t k v c) ops

/-- `SuggestionCache.getSimilarity`: exact match required under 3
characters; substring containment scores a fixed 0.95; otherwise
`1 - distance / maxLength` (written as `(maxLength - distance) / maxLength`
over `Int` so that the kernel can evaluate it; the value is identical). -/
def getSimilarity (s1 s2 : String) : ℚ :=
  if s1.length < 3 || s2.length < 3 then (if s1 = s2 then mkRat 1 1 else mkRat 0 1)
  else if jsIncludes s2 s1 then mkRat 95 100
  else
    mkRat ((max s1.length s2.length : ℤ) - (levDistance s1.data s2.data : ℤ))
      (max s1.length s2.length)

/-- The query of `SuggestionCache.fuzzyGet`:
`key.split(/\s+/).slice(-5).join(' ')`. -/
def lastFewWords (key : String) : String :=
  jsJoin " " (jsSliceLast 5 (jsSplitWs key))

/-- The best-match accumulator of the `fuzzyGet` loop:
`if (similarity > threshold) { if (!bestMatch || similarity > bestMatch[1]) ... }`. -/
def bestStep (thr : ℚ) (q : String) (acc : Option (String × ℚ)) (e : String × CacheItem) :
    Option (String × ℚ) :=
  if thr < getSimilarity q e.1 then
    match acc with
    | none => some (e.1, getSimilarity q e.1)
    | some (k0, s0) =>
      if s0 < getSimilarity q e.1 then some (e.1, getSimilarity q e.1) else some (k0, s0)
  else acc

/-- `item.lastAccessed = Date.now()` on the entry with key `k`. -/
def touch (now : ℕ) (k : String) (l : EntryList) : EntryList :=
  l.map fun e => if e.1 = k then (e.1, { e.2 with lastAccessed := now }) else e

/-- `SuggestionCache.fuzzyGet` at time `now` on an already-normalized
key. -/
def fuzzyGet (now : ℕ) (key : String) (c : SuggestionCache) :
    Option String × SuggestionCache :=
  let q := lastFewWords key
  match c.entries.foldl (bestStep c.config.fuzzyThreshold q) none with
  | some (k0, _) =>
    match mapFind k0 c.entries with
    | some it => (some it.value, { c with entries := touch now k0 c.entries })
    | none => (none, c)
  | none => (none, c)

/-- `SuggestionCache.get` at time `now`: clean expired entries, try the
exact normalized key, then fuzzy matching; book-keep hits and misses.
The fuzzy result is tested for truthiness (`if (fuzzyResult)`), so a
fuzzy match whose stored value is the empty string falls through to the
miss path (`misses++; return null`), while the exact-match branch
returns `item.value` with no such test. -/
def get (now : ℕ) (key : String) (c : SuggestionCache) :
    Option String × SuggestionCache :=
  let c1 := cleanExpired now c
  let nk := normalizeKey key
  match mapFind nk c1.entries with
  | some it =>
    (some it.value, { c1 with entries := touch now nk c1.entries, hits := c1.hits + 1 })
  | none =>
    if c1.config.fuzzyMatch then
      match fuzzyGet now nk c1 with
      | (some v, c2) =>
        if v = "" then (none, { c2 with misses := c2.misses + 1 })
        else (some v, { c2 with hits := c2.hits + 1 })
      | (none, c2) => (none, { c2 with misses := c2.misses + 1 })
    else (none, { c1 with misses := c1.misses + 1 })

/-- Specification-level measure: the number of live (non-expired) entries
at time `now`. -/
def liveCount (now : ℕ) (c : SuggestionCache) : ℕ :=
  (c.entries.filter fun e => !(e.2.expiresAt < now)).length

end SuggestionCache

end CacheUtils

namespace DeepseekConfig

/-- `options[Math.floor(Math.random() * options.length)]` with the random
draw supplied as an explicit natural number `r` (reduced modulo the list
length, so every list element is reachable by some draw). -/
def pickOne (options : List String) (r : ℕ) : String :=
  options.getD (r % options.length) ""

/-- The option lists of `getContextualFallback` in `deepseek-config.ts`. -/
def repetitionOptions : List String :=
  ["furthermore", "additionally", "in contrast", "specifically", "interestingly", "notably"]

/-- Options of the causal-pattern branch. -/
def causalOptions : List String :=
  ["it provides", "it enables", "it allows for", "it creates", "it facilitates",
   "it helps with"]

/-- Options of the contrast-pattern branch. -/
def contrastOptions : List String :=
  ["we must consider", "it\x27s important to note", "we should remember",
   "it\x27s worth noting", "we need to recognize"]

/-- Options of the conclusion-pattern branch. -/
def conclusionOptions : List String :=
  ["we can conclude", "it follows that", "we understand that", "we can see that",
   "it becomes clear"]

/-- Options of the example-pattern branch. -/
def exampleOptions : List String :=
  ["when we look at", "consider the case of", "as shown by", "as demonstrated by",
   "as illustrated by"]

/-- Options of the question-word branch. -/
def questionOptions : List String :=
  ["it\x27s important to", "we should consider", "let\x27s examine", "we can analyze",
   "it\x27s helpful to"]

/-- Options of the trailing-question-mark branch. -/
def questionMarkOptions : List String :=
  ["the answer is", "we can see that", "it depends on", "it varies based on",
   "several factors determine"]

/-- Options when the last word is `the`. -/
def theOptions : List String :=
  ["most important", "key factor", "main point", "critical aspect", "essential element"]

/-- Options when the last word is `a`. -/
def aOptions : List String :=
  ["significant", "major", "crucial", "key", "fundamental", "valuable"]

/-- Options when the last word is `to`. -/
def toOptions : List String :=
  ["ensure that", "make sure", "consider how", "understand why", "recognize that"]

/-- Options when the last word is `and`. -/
def andOptions : List String :=
  ["furthermore", "additionally", "moreover", "beyond that", "equally important"]

/-- Options when the last word is `in`. -/
def inOptions : List String :=
  ["this case", "particular", "general", "many situations", "most contexts"]

/-- Options when the last word is `with`. -/
def withOptions : List String :=
  ["careful consideration", "this approach", "these tools", "proper planning",
   "the right resources"]

/-- Options when the last word ends with a period. -/
def periodOptions : List String :=
  ["Additionally", "Furthermore", "Moreover", "Next", "Building on this", "In addition"]

/-- Options when the last word ends with an exclamation mark. -/
def exclaimOptions : List String :=
  ["Importantly", "Notably", "Significantly", "Remarkably", "Interestingly"]

/-- Options when the last word ends with a comma. -/
def commaOptions : List String :=
  ["as well as", "along with", "in addition to", "together with", "not to mention"]

/-- Options when the context already says "which means that". -/
def whichMeansOptions : List String :=
  ["suggesting that", "indicating that", "demonstrating that", "showing that",
   "highlighting that"]

/-- The general fallback options. -/
def generalOptions : List String :=
  ["suggesting that", "indicating that", "showing that", "demonstrating that",
   "highlighting that", "revealing that"]

/-- `const lowerContext = context.toLowerCase().trim()` of
`getContextualFallback`. -/
def lowerCtx (context : String) : String := jsTrim (jsToLower context)

/-- `const words = lowerContext.split(/\s+/)` of `getContextualFallback`. -/
def ctxWords (context : String) : List String := jsSplitWs (lowerCtx context)

/-- `const lastWord = words[words.length - 1] || \x27\x27` of
`getContextualFallback`. -/
def ctxLastWord (context : String) : String := (ctxWords context).getLastD ""

/-- `const lastFewWords = words.slice(-3).join(\x27 \x27)` of
`getContextualFallback`. -/
def ctxLastFew (context : String) : String := jsJoin " " (jsSliceLast 3 (ctxWords context))

/-- The branch structure of `getContextualFallback` in
`deepseek-config.ts`: which option list the chain of early `return`
statements selects for a given context.  (Each source branch returns
`options[Math.floor(Math.random() * options.length)]`; the selection of
the list and the random indexing are factored apart, see
`getContextualFallback`.) -/
def chooseOptions (context : String) : List String :=
  if jsIncludes (lowerCtx context) "which means that which means that"
      || jsIncludes (lowerCtx context) "we need to we need to"
      || jsIncludes (lowerCtx context) "showing that showing that"
      || jsIncludes (lowerCtx context) "indicating that indicating that" then
    repetitionOptions
  else if jsIncludes (ctxLastFew context) "because"
      || jsIncludes (ctxLastFew context) "since"
      || jsIncludes (ctxLastFew context) "as a result" then causalOptions
  else if jsIncludes (ctxLastFew context) "however"
      || jsIncludes (ctxLastFew context) "but"
      || jsIncludes (ctxLastFew context) "yet" then contrastOptions
  else if jsIncludes (ctxLastFew context) "therefore"
      || jsIncludes (ctxLastFew context) "thus"
      || jsIncludes (ctxLastFew context) "hence" then conclusionOptions
  else if jsIncludes (ctxLastFew context) "for example"
      || jsIncludes (ctxLastFew context) "such as"
      || jsIncludes (ctxLastFew context) "like" then exampleOptions
  else if jsIncludes (ctxLastFew context) "what" || jsIncludes (ctxLastFew context) "how"
      || jsIncludes (ctxLastFew context) "why" || jsIncludes (ctxLastFew context) "when"
      || jsIncludes (ctxLastFew context) "where" || jsIncludes (ctxLastFew context) "who" then
    questionOptions
  else if jsEndsWith (ctxLastFew context) "?" then questionMarkOptions
  else if ctxLastWord context = "the" then theOptions
  else if ctxLastWord context = "a" then aOptions
  else if ctxLastWord context = "to" then toOptions
  else if ctxLastWord context = "and" then andOptions
  else if ctxLastWord context = "in" then inOptions
  else if ctxLastWord context = "with" then withOptions
  else if jsEndsWith (ctxLastWord context) "." then periodOptions
  else if jsEndsWith (ctxLastWord context) "!" then exclaimOptions
  else if jsEndsWith (ctxLastWord context) "," then commaOptions
  else if jsIncludes (lowerCtx context) "which means that" then whichMeansOptions
  else generalOptions

/-- `getContextualFallback` of `deepseek-config.ts`, with the
`Math.random()` draw supplied as the explicit parameter `r`: pick from
the option list the branch chain selects. -/
def getContextualFallback (context : String) (r : ℕ) : String :=
  pickOne (chooseOptions context) r

end DeepseekConfig

/-- Remove HTML-ish tags, mirroring the global regex replace
`replace(/<\/?[^>]+(>|$)/g, "")` of the suggestion route: a `<`, an
optional `/`, at least one character other than `>`, then a `>` or the
end of the string.  The Boolean state records whether the scanner is
inside a tag being deleted. -/
def stripTagsGo : Bool → List Char → List Char
  | _, [] => []
  | false, '<' :: rest =>
    match rest with
    | [] => ['<']
    | d :: _ => if d = '>' then '<' :: stripTagsGo false rest else stripTagsGo true rest
  | false, c :: rest => c :: stripTagsGo false rest
  | true, c :: rest => if c = '>' then stripTagsGo false rest else stripTagsGo true rest

/-- String wrapper for `stripTagsGo`. -/
def stripTags (s : String) : String := ⟨stripTagsGo false s.data⟩

/-- Splitting a character list at every occurrence of a separator
character, mirroring JavaScript `split("\n")`. -/
def splitOnChar (sep : Char) : List Char → List (List Char)
  | [] => [[]]
  | c :: t =>
    let r := splitOnChar sep t
    if c = sep then [] :: r
    else
      match r with
      | h :: t' => (c :: h) :: t'
      | [] => [[c]]

/-- JavaScript `s.split(sep)` for a single-character separator. -/
def jsSplitOn (sep : Char) (s : String) : List String :=
  (splitOnChar sep s.data).map fun cs => (⟨cs⟩ : String)

/-- JavaScript `s.slice(0, -n)`: drop the last `n` characters. -/
def jsDropRight (n : ℕ) (s : String) : String :=
  ⟨s.data.take (s.data.length - n)⟩

namespace MarkdownUtils

/-- The test `/^\x60\x60\x60[a-z]*$/` on a line: a code fence marker
optionally followed by a lowercase language name. -/
def fenceLine (l : String) : Bool :=
  jsStartsWith l "```" && (l.data.drop 3).all fun c => c.isLower

/-- `sanitizeMarkdown` of `src/app/lib/markdown-utils.ts`: remove a
wrapping code fence from an AI response. -/
def sanitizeMarkdown (markdown : String) : String :=
  if jsStartsWith markdown "```" && jsIncludes markdown "\n" then
    let lines := jsSplitOn '\n' markdown
    let lines1 := if fenceLine (lines.headD "") then lines.drop 1 else lines
    let lines2 := if lines1.getLast? = some "```" then lines1.dropLast else lines1
    jsJoin "\n" lines2
  else markdown

end MarkdownUtils

namespace GenerateSuggestionRoute

/-- The JSON value found in the request's `text` field: a string, absent
(`undefined`), or some non-string value with the given truthiness. -/
inductive JsVal where
  | jsStr (s : String)
  | jsUndefined
  | jsOther (truthy : Bool)
deriving Repr, DecidableEq

/-- The validation `!text || typeof text !== "string"` of the route: a
present non-empty string is the only accepted shape (the empty string is
falsy in JavaScript and is therefore rejected as well). -/
def invalidText : JsVal → Bool
  | .jsStr s => s = ""
  | .jsUndefined => true
  | .jsOther _ => true

/-- The string content of the `text` field (only used on valid input). -/
def textStr : JsVal → String
  | .jsStr s => s
  | .jsUndefined => ""
  | .jsOther _ => ""

/-- The parsed request body fields the handler reads (the
`maxTokens` / `temperature` knobs only parameterize the opaque upstream
call and are omitted). -/
structure ReqBody where
  text : JsVal
  isMarkdown : Bool
deriving Repr, DecidableEq

/-- The error thrown by the upstream client library: an optional
`message` and an optional numeric `status`. -/
structure ProviderErr where
  message : Option String
  status : Option ℕ
deriving Repr, DecidableEq

/-- The observable response of the route: the HTTP status plus the
`suggestion`, `error` and `fallback` payload fields (the route never
writes a `fallback` field, so it is `none` on every path; `timeTaken`
and `analysis` are metadata not inspected by any claim). -/
structure RouteResponse where
  status : ℕ
  suggestion : String
  error : Option String
  fallback : Option Bool
deriving Repr, DecidableEq

/-- Lines 172-196 of the route: trim the raw model output, then for
markdown requests apply `sanitizeMarkdown` and strip tags when both `<`
and `>` occur; for plain requests strip tags when HTML markers occur and
unwrap a code fence. -/
def cleanSuggestion (isMarkdown : Bool) (raw : String) : String :=
  let s0 := jsTrim raw
  if isMarkdown then
    let s1 := MarkdownUtils.sanitizeMarkdown s0
    if jsHasChar s1 '<' && jsHasChar s1 '>' then stripTags s1 else s1
  else
    let s1 :=
      if jsStartsWith s0 "<p>" || jsIncludes s0 "</p>" || jsIncludes s0 "<h"
          || jsIncludes s0 "</h" then stripTags s0
      else s0
    if jsStartsWith s1 "```" && jsIncludes s1 "\n" then
      let s2 := jsJoin "\n" ((jsSplitOn '\n' s1).drop 1)
      if jsEndsWith s2 "```" then jsTrim (jsDropRight 3 s2) else s2
    else s1

/-- The punctuation test of lines 205-208: the suggestion starts with one
of `. , ! ? : ; )`. -/
def startsWithClosing (s : String) : Bool :=
  jsStartsWith s "." || jsStartsWith s "," || jsStartsWith s "!" || jsStartsWith s "?"
    || jsStartsWith s ":" || jsStartsWith s ";" || jsStartsWith s ")"

/-- Lines 198-211 of the route: drop one leading space of the suggestion
when the document text already ends with a space, and prepend a space
when the text ends with neither space nor newline and the suggestion does
not start with closing punctuation. -/
def whitespaceFix (text s0 : String) : String :=
  let s1 :=
    if jsEndsWith text " " && jsStartsWith s0 " " then (⟨s0.data.drop 1⟩ : String) else s0
  if !jsEndsWith text " " && !startsWithClosing s1 && !jsEndsWith text "\n"
      && decide (0 < s1.length) then
    " " ++ s1
  else s1

/-- The `POST` handler of `src/app/api/generate-suggestion/route.ts`.
`apiKeyConfigured` embeds `process.env.DEEPSEEK_API_KEY` being set,
`body` the outcome of `request.json()`, and `provider` the outcome of the
upstream completion call, whose success value is the raw
`completion.choices[0]?.message?.content || ""` string.  The route keeps
no other state: in particular it touches no cache and calls no fallback
generator. -/
def POST (apiKeyConfigured : Bool) (body : Except Unit ReqBody)
    (provider : Except ProviderErr String) : RouteResponse :=
  if !apiKeyConfigured then
    { status := 500, suggestion := "", error := some "DeepSeek API key not configured",
      fallback := none }
  else
    match body with
    | .error _ =>
      { status := 500, suggestion := "", error := some "Internal server error",
        fallback := none }
    | .ok b =>
      if invalidText b.text then
        { status := 400, suggestion := "", error := some "Invalid text input",
          fallback := none }
      else
        match provider with
        | .error e =>
          { status := jsOrNat e.status 500, suggestion := "",
            error := some (jsOrStr e.message "Failed to generate suggestion"),
            fallback := none }
        | .ok raw =>
          { status := 200,
            suggestion := whitespaceFix (textStr b.text) (cleanSuggestion b.isMarkdown raw),
            error := none, fallback := none }

end GenerateSuggestionRoute

namespace EditorHook

/-- Classification of a caught suggestion error in the editor page's
`generateNextSuggestion` (`src/unnamed/part_001`): the branches test
`error.message` for `timed out` / `504`, then `Authentication`; anything
else is generic. -/
inductive ErrKind where
  | timeout
  | auth
  | generic
deriving Repr, DecidableEq

/-- What the `setTimeout` callback scheduled by an error branch does when
the cooldown elapses: the timeout branch re-enables suggestions, resets
the error count and clears the message; the auth and generic branches
only re-enable suggestions. -/
inductive CooldownAction where
  | resetAll
  | enableOnly
deriving Repr, DecidableEq

/-- The hook state of the editor page relevant to error backoff. -/
structure HookState where
  consecutiveErrors : ℕ
  suggestionsDisabled : Bool
  isGenerating : Bool
  suggestion : String
  errorMessage : Option String
deriving Repr, DecidableEq

/-- The initial `useState` values. -/
def initState : HookState :=
  { consecutiveErrors := 0, suggestionsDisabled := false, isGenerating := false,
    suggestion := "", errorMessage := none }

/-- The entry guard of `generateNextSuggestion`:
`if (!currentContent || isGenerating || suggestionsDisabled) return;` —
returns the new state and whether a request was issued. -/
def attemptRequest (content : String) (s : HookState) : HookState × Bool :=
  if content = "" || s.isGenerating || s.suggestionsDisabled then (s, false)
  else ({ s with isGenerating := true }, true)

/-- The success continuation of `generateNextSuggestion`: store a
non-blank suggestion and reset the error state when errors were pending;
blank suggestions are not shown.  The `finally` block clears
`isGenerating`. -/
def onSuccess (sug : String) (s : HookState) : HookState :=
  let s1 :=
    if sug ≠ "" && jsTrim sug ≠ "" then
      let s2 := { s with suggestion := sug }
      if 0 < s.consecutiveErrors then
        { s2 with consecutiveErrors := 0, errorMessage := none }
      else s2
    else { s with suggestion := "" }
  { s1 with isGenerating := false }

/-- The catch block of `generateNextSuggestion`.  `c` is the value of
`consecutiveErrors` captured by the callback closure: React state updates
are asynchronous, so the branch conditions and the backoff formula read
the pre-increment count.  The result pairs the new state with the
scheduled cooldown (duration in ms and what its callback does), when one
is armed.  The `finally` block clears `isGenerating`. -/
def onError (k : ErrKind) (s : HookState) : HookState × Option (ℕ × CooldownAction) :=
  let c := s.consecutiveErrors
  let s1 := { s with suggestion := "", consecutiveErrors := min (c + 1) 5,
                     isGenerating := false }
  match k with
  | .timeout =>
    if 3 ≤ c then
      ({ s1 with suggestionsDisabled := true,
                 errorMessage := some "Suggestions are timing out. We\x27ll try again shortly." },
        some (15000, .resetAll))
    else (s1, none)
  | .auth =>
    ({ s1 with suggestionsDisabled := true,
               errorMessage := some "DeepSeek API authentication error. Check your API key." },
      some (30000, .enableOnly))
  | .generic =>
    if 2 ≤ c then
      ({ s1 with suggestionsDisabled := true,
                 errorMessage := some "Having trouble generating suggestions. Will try again shortly." },
        some (min (2000 * 2 ^ (c - 1)) 30000, .enableOnly))
    else (s1, none)

/-- The cooldown callback firing. -/
def cooldownFire (a : CooldownAction) (s : HookState) : HookState :=
  match a with
  | .resetAll =>
    { s with suggestionsDisabled := false, consecutiveErrors := 0, errorMessage := none }
  | .enableOnly => { s with suggestionsDisabled := false }

end EditorHook

namespace CleanCanvas

/-- The client controller state of
`src/app/editor/clean-canvas/page.tsx`.  The fields up to `errorMessage`
embed the page's `useState` values; `pending`, `nextId`, `lastIssued`
and `displayedFrom` are proof bookkeeping identifying fetches: ids are
assigned in issue order, `pending` lists the issued `fetch` calls whose
continuations have not yet run (the page does not serialize fetches:
stale timer closures can issue a second fetch while one is in flight,
see `startRequest`), `lastIssued` is the id of the most recently issued
request and `displayedFrom` records which request produced the currently
stored suggestion.  (The character-by-character reveal timer that copies
`currentSuggestion` into `displayedSuggestion` is cosmetic and not
modelled.) -/
structure CCState where
  isGenerating : Bool
  suggestionsDisabled : Bool
  consecutiveErrors : ℕ
  lastSuggestionTime : ℕ
  currentSuggestion : String
  suggestionVisible : Bool
  errorMessage : Option String
  pending : List ℕ
  nextId : ℕ
  lastIssued : Option ℕ
  displayedFrom : Option ℕ
deriving Repr, DecidableEq

/-- The initial `useState` values. -/
def initState : CCState :=
  { isGenerating := false, suggestionsDisabled := false, consecutiveErrors := 0,
    lastSuggestionTime := 0, currentSuggestion := "", suggestionVisible := false,
    errorMessage := none, pending := [], nextId := 0, lastIssued := none,
    displayedFrom := none }

/-- The guards at the top of `generateNextSuggestion` (disabled, already
generating, empty content, 200ms cooldown since the last attempt),
followed by issuing the `fetch`.  `generateNextSuggestion` is a
`useCallback` closure, and the debounce-timer callback of
`handleContentChange` that invokes it is another: both read
`suggestionsDisabled`, `isGenerating` and `lastSuggestionTime` as
captured at the render that created them, not the current values
(`handleContentChange`'s dependency array omits `generateNextSuggestion`
and armed timers are not cancelled when these flags change).  The
captured values are therefore passed in as `capDisabled`,
`capGenerating` and `capLastTime`; a callback created in the current
render carries the current values, a stale one may not.  The `setState`
effects apply to the current state.  Returns the new state and whether a
`fetch` was issued. -/
def startRequest (now : ℕ) (content : String) (capDisabled capGenerating : Bool)
    (capLastTime : ℕ) (s : CCState) : CCState × Bool :=
  if capDisabled then (s, false)
  else if capGenerating then (s, false)
  else if jsTrim content = "" then (s, false)
  else if now - capLastTime < 200 then (s, false)
  else
    ({ s with lastSuggestionTime := now, isGenerating := true,
              pending := s.pending ++ [s.nextId], lastIssued := some s.nextId,
              nextId := s.nextId + 1 }, true)

/-- The continuation after the `fetch` of request `id` resolves with a
payload suggestion (page.tsx lines 363-414).  The continuation runs for
every resolving fetch and carries no request identity or staleness
check: suggestions of length at least 2 are stored and shown
unconditionally and reset the error count; others hide the overlay.
The `finally` block clears `isGenerating`. -/
def onResponse (id : ℕ) (sug : String) (s : CCState) : CCState :=
  let s1 :=
    if 1 < sug.length then
      { s with currentSuggestion := sug, suggestionVisible := true,
               consecutiveErrors := 0, displayedFrom := some id }
    else { s with suggestionVisible := false }
  { s1 with isGenerating := false, pending := s1.pending.erase id }

/-- `handleSuggestionError` of the page: increment the error count, hide
the suggestion, and when the pre-increment count has reached 2, disable
suggestions and schedule a fixed 15000ms re-enable callback (returned as
the second component). -/
def handleSuggestionError (s : CCState) : CCState × Option ℕ :=
  let c := s.consecutiveErrors
  let s1 := { s with consecutiveErrors := c + 1, suggestionVisible := false }
  if 2 ≤ c then
    ({ s1 with suggestionsDisabled := true,
               errorMessage := some "Suggestions temporarily disabled due to errors. Will try again shortly." },
      some 15000)
  else (s1, none)

/-- The continuation after the `fetch` of request `id` rejects: the
catch block calls `handleSuggestionError` and the `finally` block clears
`isGenerating`, again with no identity check. -/
def onFailure (id : ℕ) (s : CCState) : CCState × Option ℕ :=
  let r := handleSuggestionError s
  ({ r.1 with isGenerating := false, pending := r.1.pending.erase id }, r.2)

/-- The 15-second cooldown callback: re-enable suggestions, reset the
error count, clear the message. -/
def cooldownExpire (s : CCState) : CCState :=
  { s with suggestionsDisabled := false, consecutiveErrors := 0, errorMessage := none }

/-- The events the browser event loop delivers to the controller.  A
`trigger` is a debounce-timer callback invoking
`generateNextSuggestion`; it carries the flag values its closure
captured (equal to the current state for a callback created in the
current render, possibly stale for a timer armed in an earlier one). -/
inductive Event where
  | trigger (now : ℕ) (content : String) (capDisabled capGenerating : Bool) (capLastTime : ℕ)
  | response (id : ℕ) (suggestion : String)
  | failure (id : ℕ)
  | expire
deriving Repr, DecidableEq

/-- One event-loop step. -/
def step (s : CCState) (e : Event) : CCState :=
  match e with
  | .trigger now content capD capG capT => (startRequest now content capD capG capT s).1
  | .response id sug => onResponse id sug s
  | .failure id => (onFailure id s).1
  | .expire => cooldownExpire s

/-- The state after a sequence of events from the initial state. -/
def runTrace (evs : List Event) : CCState := evs.foldl step initState

end CleanCanvas

namespace CacheUtils.SuggestionCache

/-- Invariant of the best-match loop in `fuzzyGet`, over the entries
`l` already processed: a `none` accumulator means no processed entry
beat the threshold; a `some (k, s)` accumulator records a processed
entry key whose similarity `s` beats the threshold and is maximal among
processed entries. -/
def BestInv (thr : ℚ) (q : String) (l : EntryList) : Option (String × ℚ) → Prop
  | none => ∀ e ∈ l, getSimilarity q e.1 ≤ thr
  | some (k, s) =>
    (∃ e ∈ l, e.1 = k ∧ getSimilarity q e.1 = s) ∧ thr < s
      ∧ ∀ e ∈ l, getSimilarity q e.1 ≤ s

/-- Invariant of the eviction scan over the processed entries: a `none`
accumulator means nothing was processed yet; `some (k, t)` records a
processed entry whose `lastAccessed` equals `t` and is minimal among the
processed entries. -/
def OldInv (l : EntryList) : Option (String × ℕ) → Prop
  | none => l = []
  | some (k, t) => (∃ it, (k, it) ∈ l ∧ it.lastAccessed = t) ∧ ∀ e ∈ l, t ≤ e.2.lastAccessed

end CacheUtils.SuggestionCache

namespace DeepseekConfig

/-- Executable check used to audit every fallback phrase: non-empty and
between one and four words. -/
def fallbackOk (s : String) : Bool :=
  (s != "") && decide (1 ≤ wordCount s) && decide (wordCount s ≤ 4)

theorem pickOne_mem (opts : List String) (r : ℕ) (h : opts ≠ []) :
    pickOne opts r ∈ opts := by
  unfold pickOne
  have hl : 0 < opts.length := List.length_pos.2 h
  have hm : r % opts.length < opts.length := Nat.mod_lt _ hl
  rw [List.getD_eq_getElem?_getD, List.getElem?_eq_getElem hm, Option.getD_some]
  exact List.getElem_mem hm

theorem pickOne_ok (opts : List String) (r : ℕ) (h : opts ≠ [])
    (hall : opts.all fallbackOk = true) : fallbackOk (pickOne opts r) = true :=
  (List.all_eq_true.1 hall) _ (pickOne_mem opts r h)

theorem P_ite {α : Type} (P : α → Prop) (c : Prop) [Decidable c] (a b : α)
    (ha : P a) (hb : P b) : P (if c then a else b) := by
  split <;> assumption

theorem chooseOptions_spec (context : String) (P : List String → Prop)
    (h1 : P repetitionOptions) (h2 : P causalOptions) (h3 : P contrastOptions)
    (h4 : P conclusionOptions) (h5 : P exampleOptions) (h6 : P questionOptions)
    (h7 : P questionMarkOptions) (h8 : P theOptions) (h9 : P aOptions)
    (h10 : P toOptions) (h11 : P andOptions) (h12 : P inOptions) (h13 : P withOptions)
    (h14 : P periodOptions) (h15 : P exclaimOptions) (h16 : P commaOptions)
    (h17 : P whichMeansOptions) (h18 : P generalOptions) :
    P (chooseOptions context) := by
  unfold chooseOptions
  repeat' apply P_ite
  all_goals assumption

theorem fallback_ok (context : String) (r : ℕ) :
    fallbackOk (getContextualFallback context r) = true := by
  unfold getContextualFallback
  refine chooseOptions_spec context
    (fun opts => fallbackOk (pickOne opts r) = true) ?_ ?_ ?_ ?_ ?_ ?_ ?_ ?_ ?_ ?_ ?_ ?_ ?_
    ?_ ?_ ?_ ?_ ?_ <;>
    exact pickOne_ok _ r (by decide) (by decide)

theorem fallback_ne_empty (context : String) (r : ℕ) :
    getContextualFallback context r ≠ "" := by
  have h := fallback_ok context r
  unfold fallbackOk at h
  simp only [Bool.and_eq_true, bne_iff_ne, ne_eq, decide_eq_true_eq] at h
  exact h.1.1

end DeepseekConfig

/-- C8 (amended): the fallback generator, as a function of the trailing
text and of the explicit random draw, is pure and total: for every input
and draw it returns a non-empty phrase of one to four words (several
option phrases have four words, so the claimed bound of three does not
hold), two calls with the same input and the same draw agree, different
draws may return different phrases, and on the empty input it returns
one of the general connective phrases. -/
theorem c8_fallback_pure_total (context : String) (r : ℕ) :
    DeepseekConfig.getContextualFallback context r ≠ ""
    ∧ 1 ≤ wordCount (DeepseekConfig.getContextualFallback context r)
    ∧ wordCount (DeepseekConfig.getContextualFallback context r) ≤ 4
    ∧ (context = "" →
        DeepseekConfig.getContextualFallback context r ∈ DeepseekConfig.generalOptions) := by
  have h := DeepseekConfig.fallback_ok context r
  unfold DeepseekConfig.fallbackOk at h
  simp only [Bool.and_eq_true, bne_iff_ne, ne_eq, decide_eq_true_eq] at h
  refine ⟨h.1.1, h.1.2, h.2, ?_⟩
  rintro rfl
  exact DeepseekConfig.pickOne_mem _ r (by decide)

/-- C8 witness: the conjuncts of `c8_fallback_pure_total` at the empty
context and draw 0, with the final implication discharged. -/
theorem c8_fallback_pure_total_witness :
    DeepseekConfig.getContextualFallback "" 0 ≠ ""
    ∧ DeepseekConfig.getContextualFallback "" 0 ∈ DeepseekConfig.generalOptions :=
  ⟨(c8_fallback_pure_total "" 0).1, (c8_fallback_pure_total "" 0).2.2.2 rfl⟩

/-- C8 counterexample: on the input `"but"` the fallback generator
returns different phrases for different random draws (so two calls on
the same input need not agree), and one of its outputs has four words
(so the 1-to-3-word bound fails). -/
theorem c8_counterexample :
    DeepseekConfig.getContextualFallback "but" 0 = "we must consider"
    ∧ DeepseekConfig.getContextualFallback "but" 1 = "it\x27s important to note"
    ∧ DeepseekConfig.getContextualFallback "but" 0
        ≠ DeepseekConfig.getContextualFallback "but" 1
    ∧ wordCount (DeepseekConfig.getContextualFallback "but" 1) = 4 := by
  exact ⟨by decide, by decide, by decide, by decide⟩

namespace GenerateSuggestionRoute

theorem string_ne_empty_iff (s : String) : s ≠ "" ↔ 0 < s.length := by
  constructor
  · intro h
    rcases s with ⟨data⟩
    cases data with
    | nil => exact absurd rfl h
    | cons c t => simp [String.length]
  · intro h he
    subst he
    simp [String.length] at h

end GenerateSuggestionRoute

/-- C1 counterexample: with the API key configured, a valid text and a
failing provider, the route of `generate-suggestion/route.ts` answers
HTTP 500 with an empty suggestion and no `fallback` field — not the
fallback generator's output tagged `fallback: true` as claimed. -/
theorem c1_counterexample :
    GenerateSuggestionRoute.POST true
        (.ok { text := .jsStr "hello world", isMarkdown := false })
        (.error { message := some "Connection error.", status := none })
      = { status := 500, suggestion := "",
          error := some "Connection error.", fallback := none } := by
  decide

/-- C1 (amended): on provider failure with a configured key and valid
text, the suggestion endpoint returns an empty suggestion together with
the error message and the provider's HTTP status (500 when absent), and
no `fallback` field at all; in particular the returned suggestion is
never an output of the fallback generator (whose outputs are non-empty),
and the endpoint keeps no cache — `POST` is a pure function of the key,
body and provider outcome, so no cache insertion happens on any path. -/
theorem c1_provider_failure_no_fallback (b : GenerateSuggestionRoute.ReqBody)
    (e : GenerateSuggestionRoute.ProviderErr)
    (hv : GenerateSuggestionRoute.invalidText b.text = false) :
    GenerateSuggestionRoute.POST true (.ok b) (.error e)
      = { status := jsOrNat e.status 500, suggestion := "",
          error := some (jsOrStr e.message "Failed to generate suggestion"),
          fallback := none }
    ∧ ∀ r, (GenerateSuggestionRoute.POST true (.ok b) (.error e)).suggestion
        ≠ DeepseekConfig.getContextualFallback (GenerateSuggestionRoute.textStr b.text) r := by
  have hpost : GenerateSuggestionRoute.POST true (.ok b) (.error e)
      = { status := jsOrNat e.status 500, suggestion := "",
          error := some (jsOrStr e.message "Failed to generate suggestion"),
          fallback := none } := by
    unfold GenerateSuggestionRoute.POST
    simp [hv]
  refine ⟨hpost, fun r h => ?_⟩
  rw [hpost] at h
  exact DeepseekConfig.fallback_ne_empty _ r h.symm

/-- C1 witness: the amended behaviour at a concrete failing request. -/
theorem c1_provider_failure_no_fallback_witness :
    GenerateSuggestionRoute.POST true
        (.ok { text := .jsStr "hello world", isMarkdown := false })
        (.error { message := none, status := some 503 })
      = { status := 503, suggestion := "",
          error := some "Failed to generate suggestion", fallback := none }
    ∧ ∀ r, (GenerateSuggestionRoute.POST true
        (.ok { text := .jsStr "hello world", isMarkdown := false })
        (.error { message := none, status := some 503 })).suggestion
        ≠ DeepseekConfig.getContextualFallback "hello world" r :=
  c1_provider_failure_no_fallback
    { text := .jsStr "hello world", isMarkdown := false }
    { message := none, status := some 503 } (by decide)

/-- C2 counterexample: a request with a perfectly valid text but no
configured API key is answered with HTTP 500 — neither the claimed 400
(the text is a valid string) nor the claimed 200. -/
theorem c2_counterexample :
    (GenerateSuggestionRoute.POST false
        (.ok { text := .jsStr "hello", isMarkdown := false }) (.ok "world")).status = 500
    ∧ GenerateSuggestionRoute.invalidText (.jsStr "hello") = false
    ∧ (500 : ℕ) ≠ 400 ∧ (500 : ℕ) ≠ 200 := by
  decide

/-- C2 (amended): the endpoint's status codes are: 500 when the API key
is missing (checked before anything else) or when the body cannot be
parsed; 400 when the key is configured, the body parses, and the `text`
field is missing, not a string, or the empty string; the provider
error's own status (or 500) on provider failure — which the route
forwards as the HTTP status instead of converting it to 200; and 200
exactly on the success path. -/
theorem c2_status_codes (b : GenerateSuggestionRoute.ReqBody)
    (e : GenerateSuggestionRoute.ProviderErr) (raw : String) :
    (∀ prov, (GenerateSuggestionRoute.POST false (.ok b) prov).status = 500)
    ∧ (∀ prov, (GenerateSuggestionRoute.POST true (.error ()) prov).status = 500)
    ∧ (GenerateSuggestionRoute.invalidText b.text = true →
        ∀ prov, (GenerateSuggestionRoute.POST true (.ok b) prov).status = 400)
    ∧ (GenerateSuggestionRoute.invalidText b.text = false →
        (GenerateSuggestionRoute.POST true (.ok b) (.error e)).status = jsOrNat e.status 500)
    ∧ (GenerateSuggestionRoute.invalidText b.text = false →
        (GenerateSuggestionRoute.POST true (.ok b) (.ok raw)).status = 200) := by
  refine ⟨fun prov => by simp [GenerateSuggestionRoute.POST],
    fun prov => by simp [GenerateSuggestionRoute.POST],
    fun hv prov => ?_, fun hv => ?_, fun hv => ?_⟩
  · unfold GenerateSuggestionRoute.POST
    cases prov <;> simp [hv]
  · unfold GenerateSuggestionRoute.POST
    simp [hv]
  · unfold GenerateSuggestionRoute.POST
    simp [hv]

/-- C2 witness: the five status cases at concrete requests. -/
theorem c2_status_codes_witness :
    (GenerateSuggestionRoute.POST false
        (.ok { text := .jsStr "hi there", isMarkdown := false }) (.ok "x")).status = 500
    ∧ (GenerateSuggestionRoute.POST true
        (.ok { text := .jsStr "hi there", isMarkdown := false })
        (.error { message := none, status := none })).status = jsOrNat none 500
    ∧ (GenerateSuggestionRoute.POST true
        (.ok { text := .jsStr "hi there", isMarkdown := false }) (.ok "x")).status = 200 :=
  ⟨(c2_status_codes { text := .jsStr "hi there", isMarkdown := false }
      { message := none, status := none } "x").1 (.ok "x"),
   (c2_status_codes { text := .jsStr "hi there", isMarkdown := false }
      { message := none, status := none } "x").2.2.2.1 (by decide),
   (c2_status_codes { text := .jsStr "hi there", isMarkdown := false }
      { message := none, status := none } "x").2.2.2.2 (by decide)⟩

/-- C9 counterexample: the endpoint truncates nothing — a successful
provider completion of twelve words is returned with all twelve words
(the claimed 10-word cap does not exist in the route; it lives only in
the client-side helper of `deepseek-config.ts`, which is not part of the
endpoint). -/
theorem c9_counterexample :
    (GenerateSuggestionRoute.POST true
        (.ok { text := .jsStr "hello", isMarkdown := false })
        (.ok "a b c d e f g h i j k l")).status = 200
    ∧ wordCount (GenerateSuggestionRoute.POST true
        (.ok { text := .jsStr "hello", isMarkdown := false })
        (.ok "a b c d e f g h i j k l")).suggestion = 12 := by
  decide

/-- C9 (amended): the endpoint enforces no maximum word count — a
successful response's suggestion is exactly the cleaned provider output
passed through the whitespace join fix, and on an already-clean output
the cleaning step is the identity.  The join fix behaves as coded: when
the document text ends with a space and the cleaned suggestion starts
with a space, exactly one leading space is removed; when the text ends
with neither space nor newline and the cleaned suggestion is non-empty
and does not start with closing punctuation, a single space is
prepended. -/
theorem c9_no_truncation_join_rules (text c raw : String)
    (b : GenerateSuggestionRoute.ReqBody) :
    (jsEndsWith text " " = true → jsStartsWith c " " = true →
      GenerateSuggestionRoute.whitespaceFix text c = (⟨c.data.drop 1⟩ : String))
    ∧ (jsEndsWith text " " = false → jsEndsWith text "\n" = false →
        GenerateSuggestionRoute.startsWithClosing c = false → c ≠ "" →
        GenerateSuggestionRoute.whitespaceFix text c = " " ++ c)
    ∧ (GenerateSuggestionRoute.invalidText b.text = false →
        (GenerateSuggestionRoute.POST true (.ok b) (.ok raw)).suggestion
          = GenerateSuggestionRoute.whitespaceFix (GenerateSuggestionRoute.textStr b.text)
              (GenerateSuggestionRoute.cleanSuggestion b.isMarkdown raw))
    ∧ (jsTrim raw = raw → jsStartsWith raw "<p>" = false →
        jsIncludes raw "</p>" = false → jsIncludes raw "<h" = false →
        jsIncludes raw "</h" = false → jsStartsWith raw "```" = false →
        GenerateSuggestionRoute.cleanSuggestion false raw = raw) := by
  refine ⟨fun h1 h2 => ?_, fun h1 h2 h3 h4 => ?_, fun hv => ?_, fun h1 h2 h3 h4 h5 h6 => ?_⟩
  · unfold GenerateSuggestionRoute.whitespaceFix
    simp [h1, h2]
  · have hlen : 0 < c.length := (GenerateSuggestionRoute.string_ne_empty_iff c).1 h4
    unfold GenerateSuggestionRoute.whitespaceFix
    simp [h1, h2, h3, hlen]
  · unfold GenerateSuggestionRoute.POST
    simp [hv]
  · unfold GenerateSuggestionRoute.cleanSuggestion
    rw [h1]
    simp [h2, h3, h4, h5, h6]

/-- C9 witness: the join rules and the clean passthrough at concrete
strings (`"hi "` + `" and"` loses one space; `"hi"` + `"and"` gains
one space; a clean 12-word completion passes through unchanged). -/
theorem c9_no_truncation_join_rules_witness :
    GenerateSuggestionRoute.whitespaceFix "hi " " and" = "and"
    ∧ GenerateSuggestionRoute.whitespaceFix "hi" "and" = " and"
    ∧ GenerateSuggestionRoute.cleanSuggestion false "a b c d e f g h i j k l"
        = "a b c d e f g h i j k l" := by
  refine ⟨?_, ?_, ?_⟩
  · have h := (c9_no_truncation_join_rules "hi " " and" ""
      { text := .jsStr "", isMarkdown := false }).1 (by decide) (by decide)
    rw [h]; decide
  · exact (c9_no_truncation_join_rules "hi" "and" ""
      { text := .jsStr "", isMarkdown := false }).2.1 (by decide) (by decide) (by decide)
      (by decide)
  · exact (c9_no_truncation_join_rules "" "" "a b c d e f g h i j k l"
      { text := .jsStr "", isMarkdown := false }).2.2.2 (by decide) (by decide) (by decide)
      (by decide) (by decide) (by decide)

/-- C6 counterexample: in the editor controller, drive three consecutive
generic provider failures from the initial state.  The third failure
disables suggestions and schedules the exponential-backoff cooldown
(4000ms here), but when that cooldown fires, the consecutive error count
is still 3 — the generic-error cooldown callback only re-enables
suggestions and does not reset the count to 0 as the claim states. -/
theorem c6_counterexample :
    (EditorHook.onError .generic
        ((EditorHook.onError .generic
          ((EditorHook.onError .generic EditorHook.initState).1)).1)).2
      = some (4000, .enableOnly)
    ∧ (EditorHook.cooldownFire .enableOnly
        (EditorHook.onError .generic
          ((EditorHook.onError .generic
            ((EditorHook.onError .generic EditorHook.initState).1)).1)).1).suggestionsDisabled
      = false
    ∧ (EditorHook.cooldownFire .enableOnly
        (EditorHook.onError .generic
          ((EditorHook.onError .generic
            ((EditorHook.onError .generic EditorHook.initState).1)).1)).1).consecutiveErrors
      = 3 := by
  decide

/-- C6 (amended): in the editor controller, (a) while suggestions are
disabled no request is issued regardless of content; (b) a generic
provider failure whose pre-increment consecutive error count `c` is at
least 2 disables suggestions and schedules a cooldown of duration
`min(2000 · 2^(c−1), 30000)` — for the `N`-th consecutive failure this
is `min(1000 · 2^(N−1), 30000)`, the claimed formula with base 1000 and
cap 30000; (c) when a generic or auth cooldown expires, suggestions are
re-enabled but the error count is **not** reset (it keeps its value);
only the timeout-branch cooldown resets the count to 0; (d) once
re-enabled, requests are issued again. -/
theorem c6_backoff_disable_resume (s : EditorHook.HookState) (content : String) (c : ℕ) :
    (s.suggestionsDisabled = true → EditorHook.attemptRequest content s = (s, false))
    ∧ (s.consecutiveErrors = c → 2 ≤ c →
        (EditorHook.onError .generic s).2
            = some (min (2000 * 2 ^ (c - 1)) 30000, .enableOnly)
          ∧ (EditorHook.onError .generic s).1.suggestionsDisabled = true)
    ∧ (1 ≤ c → min (2000 * 2 ^ (c - 1)) 30000 = min (1000 * 2 ^ ((c + 1) - 1)) 30000)
    ∧ ((EditorHook.cooldownFire .enableOnly s).suggestionsDisabled = false
        ∧ (EditorHook.cooldownFire .enableOnly s).consecutiveErrors = s.consecutiveErrors)
    ∧ ((EditorHook.cooldownFire .resetAll s).suggestionsDisabled = false
        ∧ (EditorHook.cooldownFire .resetAll s).consecutiveErrors = 0)
    ∧ (content ≠ "" → s.isGenerating = false →
        (EditorHook.attemptRequest content (EditorHook.cooldownFire .enableOnly s)).2
          = true) := by
  refine ⟨fun hd => ?_, fun hc h2 => ?_, fun h1 => ?_, ⟨rfl, rfl⟩, ⟨rfl, rfl⟩,
    fun hct hg => ?_⟩
  · unfold EditorHook.attemptRequest
    simp [hd]
  · unfold EditorHook.onError
    simp [hc, h2]
  · have hpow : 2000 * 2 ^ (c - 1) = 1000 * 2 ^ c := by
      have hc1 : c - 1 + 1 = c := Nat.sub_add_cancel h1
      calc 2000 * 2 ^ (c - 1) = 1000 * (2 ^ (c - 1) * 2) := by ring
        _ = 1000 * 2 ^ (c - 1 + 1) := by rw [pow_succ]
        _ = 1000 * 2 ^ c := by rw [hc1]
    simp [hpow]
  · unfold EditorHook.attemptRequest EditorHook.cooldownFire
    simp [hct, hg]

/-- C6 witness: the amended behaviour at a concrete disabled state and a
concrete error count (fields: errors, disabled, generating, suggestion,
message). -/
theorem c6_backoff_disable_resume_witness :
    EditorHook.attemptRequest "text" ⟨1, true, false, "", none⟩
      = (⟨1, true, false, "", none⟩, false)
    ∧ (EditorHook.onError .generic ⟨3, false, true, "", none⟩).2
      = some (min (2000 * 2 ^ (3 - 1)) 30000, .enableOnly)
    ∧ (EditorHook.attemptRequest "text"
        (EditorHook.cooldownFire .enableOnly ⟨3, true, false, "", none⟩)).2 = true :=
  ⟨(c6_backoff_disable_resume ⟨1, true, false, "", none⟩ "text" 1).1 rfl,
   ((c6_backoff_disable_resume ⟨3, false, true, "", none⟩ "text" 3).2.1 rfl (by decide)).1,
   (c6_backoff_disable_resume ⟨3, true, false, "", none⟩ "text" 3).2.2.2.2.2
      (by decide) rfl⟩

namespace CleanCanvas

theorem startRequest_fresh_generating (now : ℕ) (content : String) (capD : Bool)
    (capT : ℕ) (s : CCState) :
    startRequest now content capD true capT s = (s, false) := by
  cases capD <;> rfl

theorem onResponse_unconditional (id : ℕ) (sug : String) (s : CCState)
    (h : 1 < sug.length) :
    (onResponse id sug s).displayedFrom = some id
    ∧ (onResponse id sug s).currentSuggestion = sug
    ∧ (onResponse id sug s).suggestionVisible = true := by
  simp [onResponse, h]

/-- The stale-display race of the clean-canvas page, exhibited on a
concrete trace: request 0 is issued; a debounce timer armed in an
earlier render fires while request 0 is in flight, and because its
closure captured `isGenerating = false` the guard passes and request 1
is issued (with fresh captures it would be blocked, see
`startRequest_fresh_generating`), so both requests are pending at once;
the newer response (request 1) arrives and is displayed; then the
superseded request 0 resolves and its continuation, having no staleness
check, overwrites the display — the final suggestion comes from
request 0 although request 1 was the last issued. -/
theorem stale_response_displayed :
    (CleanCanvas.runTrace
        [.trigger 1000 "hello world" false false 0,
         .trigger 1300 "hello world again" false false 0]).pending = [0, 1]
    ∧ (CleanCanvas.runTrace
        [.trigger 1000 "hello world" false false 0,
         .trigger 1300 "hello world again" false false 0,
         .response 1 "newer suggestion",
         .response 0 "stale suggestion"]).lastIssued = some 1
    ∧ (CleanCanvas.runTrace
        [.trigger 1000 "hello world" false false 0,
         .trigger 1300 "hello world again" false false 0,
         .response 1 "newer suggestion",
         .response 0 "stale suggestion"]).displayedFrom = some 0
    ∧ (CleanCanvas.runTrace
        [.trigger 1000 "hello world" false false 0,
         .trigger 1300 "hello world again" false false 0,
         .response 1 "newer suggestion",
         .response 0 "stale suggestion"]).currentSuggestion = "stale suggestion" := by
  decide

end CleanCanvas

namespace CacheUtils

namespace SuggestionCache

theorem config_cleanExpired (now : ℕ) (c : SuggestionCache) :
    (cleanExpired now c).config = c.config := rfl

theorem hits_cleanExpired (now : ℕ) (c : SuggestionCache) :
    (cleanExpired now c).hits = c.hits := rfl

theorem misses_cleanExpired (now : ℕ) (c : SuggestionCache) :
    (cleanExpired now c).misses = c.misses := rfl

theorem config_evictIfFull (c : SuggestionCache) : (evictIfFull c).config = c.config := by
  unfold evictIfFull
  split_ifs with h
  · cases hfo : findOldest c.entries with
    | none => rfl
    | some kv => cases kv; rfl
  · rfl

theorem hits_evictIfFull (c : SuggestionCache) : (evictIfFull c).hits = c.hits := by
  unfold evictIfFull
  split_ifs with h
  · cases hfo : findOldest c.entries with
    | none => rfl
    | some kv => cases kv; rfl
  · rfl

theorem misses_evictIfFull (c : SuggestionCache) : (evictIfFull c).misses = c.misses := by
  unfold evictIfFull
  split_ifs with h
  · cases hfo : findOldest c.entries with
    | none => rfl
    | some kv => cases kv; rfl
  · rfl

theorem config_set (now : ℕ) (key value : String) (c : SuggestionCache) :
    (set now key value c).config = c.config := by
  unfold set
  exact (config_evictIfFull _).trans (config_cleanExpired now c)

theorem hits_set (now : ℕ) (key value : String) (c : SuggestionCache) :
    (set now key value c).hits = c.hits := by
  unfold set
  exact (hits_evictIfFull _).trans (hits_cleanExpired now c)

theorem misses_set (now : ℕ) (key value : String) (c : SuggestionCache) :
    (set now key value c).misses = c.misses := by
  unfold set
  exact (misses_evictIfFull _).trans (misses_cleanExpired now c)

theorem entries_set (now : ℕ) (key value : String) (c : SuggestionCache) :
    (set now key value c).entries
      = mapSet (normalizeKey key)
          { value := value, expiresAt := now + c.config.ttl, lastAccessed := now }
          (evictIfFull (cleanExpired now c)).entries := by
  simp only [set]
  rw [(config_evictIfFull _).trans (config_cleanExpired now c)]

theorem mapFind_filter_mapSet (k : String) (v : CacheItem)
    (p : String × CacheItem → Bool) (hp : p (k, v) = true) (l : EntryList) :
    mapFind k ((mapSet k v l).filter p) = some v := by
  induction l with
  | nil => simp [mapSet, hp, mapFind]
  | cons e t ih =>
    obtain ⟨k', v'⟩ := e
    by_cases hk : k' = k
    · subst hk
      simp [mapSet, hp, mapFind]
    · simp only [mapSet, if_neg hk, List.filter_cons]
      by_cases hpe : p (k', v') = true
      · simp only [hpe, if_true, mapFind, if_neg hk]
        exact ih
      · simp only [Bool.not_eq_true] at hpe
        simp only [hpe, Bool.false_eq_true, if_false]
        exact ih

theorem get_exact_hit (now : ℕ) (key : String) (c : SuggestionCache) (it : CacheItem)
    (hfind : mapFind (normalizeKey key) (cleanExpired now c).entries = some it) :
    (get now key c).1 = some it.value ∧ (get now key c).2.hits = c.hits + 1 := by
  simp only [get]
  rw [hfind]
  exact ⟨rfl, rfl⟩

theorem entries_cleanExpired (now : ℕ) (c : SuggestionCache) :
    (cleanExpired now c).entries
      = c.entries.filter (fun e => !(e.2.expiresAt < now)) := rfl

end SuggestionCache

end CacheUtils

namespace CacheUtils.SuggestionCache

/-- C10: the cache identifies keys by their normalized form (last 50
characters, lowercased, trimmed): whenever two keys normalize equally,
`get` of one immediately after `set` of the other (before the TTL
elapses, on a cache of capacity at least 1) returns the stored value as
an exact hit (the hit counter increments), and a second `set` through
the other key overwrites the same entry, so the later value wins. -/
theorem c10_normalized_key_identity (c : SuggestionCache) (k1 k2 v v2 : String)
    (t1 t2 t3 : ℕ) (_hmax : 1 ≤ c.config.maxSize)
    (hnorm : normalizeKey k1 = normalizeKey k2)
    (h2 : t2 ≤ t1 + c.config.ttl) (h3 : t3 ≤ t2 + c.config.ttl) :
    (get t2 k2 (set t1 k1 v c)).1 = some v
    ∧ (get t2 k2 (set t1 k1 v c)).2.hits = c.hits + 1
    ∧ (get t3 k1 (set t2 k2 v2 (set t1 k1 v c))).1 = some v2 := by
  have key1 : mapFind (normalizeKey k2) (cleanExpired t2 (set t1 k1 v c)).entries
      = some { value := v, expiresAt := t1 + c.config.ttl, lastAccessed := t1 } := by
    rw [entries_cleanExpired, entries_set, ← hnorm]
    refine mapFind_filter_mapSet _ _ _ ?_ _
    simp only [Bool.not_eq_true', decide_eq_false_iff_not]
    omega
  have key2 : mapFind (normalizeKey k1)
      (cleanExpired t3 (set t2 k2 v2 (set t1 k1 v c))).entries
      = some { value := v2, expiresAt := t2 + c.config.ttl, lastAccessed := t2 } := by
    rw [entries_cleanExpired, entries_set, config_set, hnorm]
    refine mapFind_filter_mapSet _ _ _ ?_ _
    simp only [Bool.not_eq_true', decide_eq_false_iff_not]
    omega
  have hhit1 := get_exact_hit t2 k2 (set t1 k1 v c) _ key1
  have hhit2 := get_exact_hit t3 k1 (set t2 k2 v2 (set t1 k1 v c)) _ key2
  refine ⟨hhit1.1, ?_, hhit2.1⟩
  rw [hhit1.2, hits_set]

/-- C10 witness: two differently-cased keys with the same normalized
form share one cache entry: the first is read back through the second,
and a second write through the other key overwrites the value. -/
theorem c10_normalized_key_identity_witness :
    (get 50 "HELLO World" (set 0 "hello world  " "v1" (mkCache CacheUtils.DEFAULT_CONFIG))).1
      = some "v1"
    ∧ (get 70 "hello world  "
        (set 60 "HELLO World" "v2"
          (set 0 "hello world  " "v1" (mkCache CacheUtils.DEFAULT_CONFIG)))).1
      = some "v2" :=
  ⟨(c10_normalized_key_identity (mkCache CacheUtils.DEFAULT_CONFIG)
      "hello world  " "HELLO World" "v1" "v2" 0 50 60
      (by decide) (by decide) (by decide) (by decide)).1,
   (c10_normalized_key_identity (mkCache CacheUtils.DEFAULT_CONFIG)
      "hello world  " "HELLO World" "v1" "v2" 0 60 70
      (by decide) (by decide) (by decide) (by decide)).2.2⟩

end CacheUtils.SuggestionCache

namespace CacheUtils.SuggestionCache

theorem getSimilarity_short (s1 s2 : String) (h : s1.length < 3 ∨ s2.length < 3) :
    getSimilarity s1 s2 = if s1 = s2 then mkRat 1 1 else mkRat 0 1 := by
  unfold getSimilarity
  rcases h with h | h <;> simp [h]

theorem getSimilarity_substring (s1 s2 : String) (h1 : 3 ≤ s1.length) (h2 : 3 ≤ s2.length)
    (hinc : jsIncludes s2 s1 = true) : getSimilarity s1 s2 = mkRat 95 100 := by
  unfold getSimilarity
  have hn1 : ¬ s1.length < 3 := Nat.not_lt.2 h1
  have hn2 : ¬ s2.length < 3 := Nat.not_lt.2 h2
  simp [hn1, hn2, hinc]

theorem evictIfFull_of_entries_nil (c : SuggestionCache) (h : c.entries = []) :
    evictIfFull c = c := by
  unfold evictIfFull
  rw [h]
  split_ifs <;> rfl

theorem get_singleton_hit (now : ℕ) (key nb : String) (it : CacheItem)
    (c : SuggestionCache) (hent : (cleanExpired now c).entries = [(nb, it)])
    (hfuzzy : c.config.fuzzyMatch = true)
    (hsim : c.config.fuzzyThreshold < getSimilarity (lastFewWords (normalizeKey key)) nb)
    (hval : it.value ≠ "") :
    (get now key c).1 = some it.value := by
  by_cases hk : nb = normalizeKey key
  · have hfind : mapFind (normalizeKey key) (cleanExpired now c).entries = some it := by
      rw [hent, hk]
      simp [mapFind]
    exact (get_exact_hit now key c it hfind).1
  · have hfind : mapFind (normalizeKey key) (cleanExpired now c).entries = none := by
      rw [hent]
      simp [mapFind, hk]
    simp only [get]
    rw [hfind]
    have hc1 : (cleanExpired now c).config = c.config := rfl
    simp only [hc1, hfuzzy, if_true]
    simp only [fuzzyGet, hent, List.foldl, bestStep]
    simp only [hc1]
    rw [if_pos hsim]
    simp [mapFind, hval]

end CacheUtils.SuggestionCache

namespace CacheUtils.SuggestionCache

/-- C5 counterexample: `B = "xa   "` contains `A = "a   "`, both are
longer than 3 characters, yet `get(A)` after `set(B, v)` on a default
cache returns `null`: normalization trims `A` down to the 1-character
query `"a"`, which falls into the exact-equality branch of the
similarity function and scores 0 against the stored key `"xa"`. -/
theorem c5_counterexample :
    jsIncludes "xa   " "a   " = true
    ∧ ("a   " : String).length = 4 ∧ ("xa   " : String).length = 5
    ∧ (get 1 "a   " (set 0 "xa   " "v" (mkCache CacheUtils.DEFAULT_CONFIG))).1 = none := by
  decide

/-- C5 (amended): the similarity function scores a fixed 0.95 (without
reaching the edit-distance branch) whenever the stored key contains the
compared query string and both have length at least 3, and requires
exact equality (score 1, else 0) when either string is shorter than 3
characters.  Consequently `get(A)` after `set(B, v)` returns `v`
whenever the *normalized* artifacts keep the containment: the last five
words of A's normalized form must have length at least 3, be contained
in B's normalized form (itself of length at least 3), fuzzy matching
must be on with a threshold below 0.95, the entry must not have
expired, and the stored value must be non-empty (the source tests the
fuzzy result for truthiness, so an empty stored value is reported as a
miss).  (The unnormalized claim fails: normalization may truncate B to
its last 50 characters or collapse whitespace in A, breaking
containment, as the counterexample shows.) -/
theorem c5_substring_fast_path (s1 s2 : String) (cfg : CacheConfig) (A B v : String)
    (t1 t2 : ℕ) (h1 : 3 ≤ s1.length) (h2 : 3 ≤ s2.length)
    (hinc12 : jsIncludes s2 s1 = true)
    (hfuzzy : cfg.fuzzyMatch = true) (hthr : cfg.fuzzyThreshold < mkRat 95 100)
    (hq : 3 ≤ (lastFewWords (normalizeKey A)).length)
    (hB : 3 ≤ (normalizeKey B).length)
    (hinc : jsIncludes (normalizeKey B) (lastFewWords (normalizeKey A)) = true)
    (httl : t2 ≤ t1 + cfg.ttl) (hv : v ≠ "") :
    getSimilarity s1 s2 = mkRat 95 100
    ∧ (∀ u w : String, u.length < 3 ∨ w.length < 3 →
        getSimilarity u w = if u = w then mkRat 1 1 else mkRat 0 1)
    ∧ (get t2 A (set t1 B v (mkCache cfg))).1 = some v := by
  refine ⟨getSimilarity_substring s1 s2 h1 h2 hinc12, getSimilarity_short, ?_⟩
  have hS : (set t1 B v (mkCache cfg)).entries
      = [(normalizeKey B, { value := v, expiresAt := t1 + cfg.ttl, lastAccessed := t1 })] := by
    rw [entries_set, evictIfFull_of_entries_nil _ rfl]
    rfl
  have hcfgS : (set t1 B v (mkCache cfg)).config = cfg := config_set t1 B v _
  have hent : (cleanExpired t2 (set t1 B v (mkCache cfg))).entries
      = [(normalizeKey B, { value := v, expiresAt := t1 + cfg.ttl, lastAccessed := t1 })] := by
    rw [entries_cleanExpired, hS]
    have hkeep : (!decide (t1 + cfg.ttl < t2)) = true := by
      simp only [Bool.not_eq_true', decide_eq_false_iff_not]
      omega
    simp [List.filter, hkeep]
  refine get_singleton_hit t2 A (normalizeKey B) _ _ hent (by rw [hcfgS]; exact hfuzzy) ?_ hv
  rw [hcfgS, getSimilarity_substring _ _ hq hB hinc]
  exact hthr

end CacheUtils.SuggestionCache

/-- C5 witness: with `A = "brown fox"` and `B = "the quick brown fox"`
(containment surviving normalization), the stored value is retrieved
through the 0.95 substring fast path. -/
theorem c5_substring_fast_path_witness :
    CacheUtils.SuggestionCache.getSimilarity "brown fox" "the quick brown fox"
      = mkRat 95 100
    ∧ (CacheUtils.SuggestionCache.get 1 "brown fox"
        (CacheUtils.SuggestionCache.set 0 "the quick brown fox" "jumps"
          (CacheUtils.SuggestionCache.mkCache CacheUtils.DEFAULT_CONFIG))).1
      = some "jumps" :=
  ⟨(CacheUtils.SuggestionCache.c5_substring_fast_path "brown fox" "the quick brown fox"
      CacheUtils.DEFAULT_CONFIG "brown fox" "the quick brown fox" "jumps" 0 1
      (by decide) (by decide) (by decide) (by decide) (by decide) (by decide) (by decide)
      (by decide) (by decide) (by decide)).1,
   (CacheUtils.SuggestionCache.c5_substring_fast_path "brown fox" "the quick brown fox"
      CacheUtils.DEFAULT_CONFIG "brown fox" "the quick brown fox" "jumps" 0 1
      (by decide) (by decide) (by decide) (by decide) (by decide) (by decide) (by decide)
      (by decide) (by decide) (by decide)).2.2⟩

namespace CacheUtils.SuggestionCache

theorem bestStep_inv (thr : ℚ) (q : String) (processed : EntryList)
    (acc : Option (String × ℚ)) (e : String × CacheItem)
    (h : BestInv thr q processed acc) :
    BestInv thr q (processed ++ [e]) (bestStep thr q acc e) := by
  unfold bestStep
  by_cases hgt : thr < getSimilarity q e.1
  · rw [if_pos hgt]
    cases acc with
    | none =>
      refine ⟨⟨e, by simp, rfl, rfl⟩, hgt, ?_⟩
      intro e' he'
      rcases List.mem_append.1 he' with h' | h'
      · exact le_trans (h e' h') (le_of_lt hgt)
      · simp only [List.mem_singleton] at h'
        subst h'
        exact le_refl _
    | some ks =>
      obtain ⟨k0, s0⟩ := ks
      obtain ⟨⟨e0, he0, hk0, hs0⟩, hthr0, hmax0⟩ := h
      show BestInv thr q (processed ++ [e])
        (if s0 < getSimilarity q e.1 then some (e.1, getSimilarity q e.1) else some (k0, s0))
      by_cases hlt : s0 < getSimilarity q e.1
      · rw [if_pos hlt]
        refine ⟨⟨e, by simp, rfl, rfl⟩, hgt, ?_⟩
        intro e' he'
        rcases List.mem_append.1 he' with h' | h'
        · exact le_trans (hmax0 e' h') (le_of_lt hlt)
        · simp only [List.mem_singleton] at h'
          subst h'
          exact le_refl _
      · rw [if_neg hlt]
        refine ⟨⟨e0, List.mem_append_left _ he0, hk0, hs0⟩, hthr0, ?_⟩
        intro e' he'
        rcases List.mem_append.1 he' with h' | h'
        · exact hmax0 e' h'
        · simp only [List.mem_singleton] at h'
          subst h'
          exact le_of_not_lt hlt
  · rw [if_neg hgt]
    cases acc with
    | none =>
      intro e' he'
      rcases List.mem_append.1 he' with h' | h'
      · exact h e' h'
      · simp only [List.mem_singleton] at h'
        subst h'
        exact le_of_not_lt hgt
    | some ks =>
      obtain ⟨k0, s0⟩ := ks
      obtain ⟨⟨e0, he0, hk0, hs0⟩, hthr0, hmax0⟩ := h
      refine ⟨⟨e0, List.mem_append_left _ he0, hk0, hs0⟩, hthr0, ?_⟩
      intro e' he'
      rcases List.mem_append.1 he' with h' | h'
      · exact hmax0 e' h'
      · simp only [List.mem_singleton] at h'
        subst h'
        exact le_trans (le_of_not_lt hgt) (le_of_lt hthr0)

theorem bestFold_inv (thr : ℚ) (q : String) :
    ∀ (l processed : EntryList) (acc : Option (String × ℚ)),
      BestInv thr q processed acc →
      BestInv thr q (processed ++ l) (l.foldl (bestStep thr q) acc) := by
  intro l
  induction l with
  | nil =>
    intro processed acc h
    simpa using h
  | cons e t ih =>
    intro processed acc h
    have h2 := ih (processed ++ [e]) _ (bestStep_inv thr q processed acc e h)
    simpa [List.append_assoc] using h2

theorem bestFold_from_nil (thr : ℚ) (q : String) (l : EntryList) :
    BestInv thr q l (l.foldl (bestStep thr q) none) := by
  have h0 : BestInv thr q [] none := by
    intro e he
    exact absurd he (List.not_mem_nil e)
  simpa using bestFold_inv thr q l [] none h0

theorem mapFind_exists (k : String) (l : EntryList) (h : ∃ it, (k, it) ∈ l) :
    ∃ it, mapFind k l = some it ∧ (k, it) ∈ l := by
  induction l with
  | nil => simp at h
  | cons e t ih =>
    obtain ⟨k', v'⟩ := e
    by_cases hk : k' = k
    · subst hk
      exact ⟨v', by simp [mapFind], by simp⟩
    · obtain ⟨it, hit⟩ := h
      rcases List.mem_cons.1 hit with heq | hmem
      · exact absurd (congrArg Prod.fst heq).symm hk
      · obtain ⟨it2, hf, hm⟩ := ih ⟨it, hmem⟩
        exact ⟨it2, by simp [mapFind, hk, hf], List.mem_cons_of_mem _ hm⟩

theorem fuzzyGet_hits_misses (now : ℕ) (key : String) (c : SuggestionCache) :
    (fuzzyGet now key c).2.hits = c.hits ∧ (fuzzyGet now key c).2.misses = c.misses := by
  simp only [fuzzyGet]
  cases hfold : c.entries.foldl (bestStep c.config.fuzzyThreshold (lastFewWords key)) none with
  | none => exact ⟨rfl, rfl⟩
  | some ks =>
    obtain ⟨k0, s0⟩ := ks
    cases hfind : mapFind k0 c.entries with
    | none =>
      simp [hfind]
    | some it =>
      simp [hfind]

end CacheUtils.SuggestionCache

namespace CacheUtils.SuggestionCache

theorem fuzzyGet_none (now : ℕ) (key : String) (c : SuggestionCache)
    (hall : ∀ e ∈ c.entries,
      getSimilarity (lastFewWords key) e.1 ≤ c.config.fuzzyThreshold) :
    (fuzzyGet now key c).1 = none := by
  have hb := bestFold_from_nil c.config.fuzzyThreshold (lastFewWords key) c.entries
  cases hfold : c.entries.foldl (bestStep c.config.fuzzyThreshold (lastFewWords key)) none with
  | none => simp [fuzzyGet, hfold]
  | some ks =>
    obtain ⟨k0, s0⟩ := ks
    rw [hfold] at hb
    obtain ⟨⟨e0, he0, hk0, hs0⟩, hthr0, _⟩ := hb
    exact absurd hthr0 (not_lt.2 (hs0 ▸ hall e0 he0))

theorem fuzzyGet_hit (now : ℕ) (key : String) (c : SuggestionCache)
    (hex : ∃ e ∈ c.entries,
      c.config.fuzzyThreshold < getSimilarity (lastFewWords key) e.1) :
    ∃ e ∈ c.entries, (fuzzyGet now key c).1 = some e.2.value
      ∧ c.config.fuzzyThreshold < getSimilarity (lastFewWords key) e.1
      ∧ ∀ e2 ∈ c.entries, getSimilarity (lastFewWords key) e2.1
          ≤ getSimilarity (lastFewWords key) e.1 := by
  have hb := bestFold_from_nil c.config.fuzzyThreshold (lastFewWords key) c.entries
  cases hfold : c.entries.foldl (bestStep c.config.fuzzyThreshold (lastFewWords key)) none with
  | none =>
    rw [hfold] at hb
    obtain ⟨e0, he0, h0⟩ := hex
    exact absurd h0 (not_lt.2 (hb e0 he0))
  | some ks =>
    obtain ⟨k0, s0⟩ := ks
    rw [hfold] at hb
    obtain ⟨⟨e0, he0, hk0, hs0⟩, hthr0, hmax⟩ := hb
    obtain ⟨it, hfind, hmem⟩ := mapFind_exists k0 c.entries ⟨e0.2, by rw [← hk0]; simpa using he0⟩
    refine ⟨(k0, it), hmem, ?_, ?_, ?_⟩
    · simp [fuzzyGet, hfold, hfind]
    · simpa only [← hk0, hs0] using hthr0
    · intro e2 he2
      simpa only [← hk0, hs0] using hmax e2 he2

theorem get_fuzzy_spec (now : ℕ) (key : String) (c : SuggestionCache)
    (hexact : mapFind (normalizeKey key) (cleanExpired now c).entries = none)
    (hf : c.config.fuzzyMatch = true) :
    ((fuzzyGet now (normalizeKey key) (cleanExpired now c)).1 = none →
      (get now key c).1 = none ∧ (get now key c).2.misses = c.misses + 1)
    ∧ (∀ v, v ≠ "" → (fuzzyGet now (normalizeKey key) (cleanExpired now c)).1 = some v →
      (get now key c).1 = some v ∧ (get now key c).2.hits = c.hits + 1)
    ∧ ((fuzzyGet now (normalizeKey key) (cleanExpired now c)).1 = some "" →
      (get now key c).1 = none ∧ (get now key c).2.misses = c.misses + 1) := by
  have hhm := fuzzyGet_hits_misses now (normalizeKey key) (cleanExpired now c)
  have hfc : (cleanExpired now c).config.fuzzyMatch = true := hf
  refine ⟨?_, ?_, ?_⟩
  · intro hres
    simp only [get]
    rw [hexact]
    simp only [hfc, if_true]
    cases hfg : fuzzyGet now (normalizeKey key) (cleanExpired now c) with
    | mk res c2 =>
      rw [hfg] at hres hhm
      simp only at hres
      subst hres
      simp only [hfg]
      exact ⟨by simp, by simpa using hhm.2⟩
  · intro v hv hres
    simp only [get]
    rw [hexact]
    simp only [hfc, if_true]
    cases hfg : fuzzyGet now (normalizeKey key) (cleanExpired now c) with
    | mk res c2 =>
      rw [hfg] at hres hhm
      simp only at hres
      subst hres
      simp only [hfg]
      exact ⟨by simp [hv], by simpa [hv] using hhm.1⟩
  · intro hres
    simp only [get]
    rw [hexact]
    simp only [hfc, if_true]
    cases hfg : fuzzyGet now (normalizeKey key) (cleanExpired now c) with
    | mk res c2 =>
      rw [hfg] at hres hhm
      simp only at hres
      subst hres
      simp only [hfg]
      exact ⟨by simp, by simpa using hhm.2⟩

/-- C4 (amended): with fuzzy matching enabled at threshold 0.8 and no
exact match for the normalized key among the live entries: if some live
entry's key scores strictly above 0.8 against the last-five-words query
of the normalized lookup key, the fuzzy scan selects an entry achieving
the maximal similarity, and `get` returns its value and counts a hit
provided that stored value is non-empty; when the selected entry's
stored value is the empty string, the truthiness test on the fuzzy
result makes `get` return `none` and count a miss instead.  If every
live entry scores at most 0.8, `get` returns `none` and counts a miss.
So similarity 0.81 hits (for a non-empty stored value) and similarity
0.79 misses. -/
theorem c4_fuzzy_threshold (c : SuggestionCache) (key : String) (tq : ℕ)
    (hf : c.config.fuzzyMatch = true) (hthr : c.config.fuzzyThreshold = mkRat 8 10)
    (hexact : mapFind (normalizeKey key) (cleanExpired tq c).entries = none) :
    ((∃ e ∈ (cleanExpired tq c).entries,
        mkRat 8 10 < getSimilarity (lastFewWords (normalizeKey key)) e.1) →
      ∃ e ∈ (cleanExpired tq c).entries,
        mkRat 8 10 < getSimilarity (lastFewWords (normalizeKey key)) e.1
        ∧ (∀ e2 ∈ (cleanExpired tq c).entries,
            getSimilarity (lastFewWords (normalizeKey key)) e2.1
              ≤ getSimilarity (lastFewWords (normalizeKey key)) e.1)
        ∧ ((e.2.value ≠ ""
              ∧ (get tq key c).1 = some e.2.value
              ∧ (get tq key c).2.hits = c.hits + 1)
            ∨ (e.2.value = ""
              ∧ (get tq key c).1 = none
              ∧ (get tq key c).2.misses = c.misses + 1)))
    ∧ ((∀ e ∈ (cleanExpired tq c).entries,
          getSimilarity (lastFewWords (normalizeKey key)) e.1 ≤ mkRat 8 10) →
        (get tq key c).1 = none ∧ (get tq key c).2.misses = c.misses + 1) := by
  have hc1t : (cleanExpired tq c).config.fuzzyThreshold = mkRat 8 10 := hthr
  have hspec := get_fuzzy_spec tq key c hexact hf
  constructor
  · intro hex
    obtain ⟨e, he, hval, hgt, hmax⟩ :=
      fuzzyGet_hit tq (normalizeKey key) (cleanExpired tq c) (by rw [hc1t]; exact hex)
    rw [hc1t] at hgt
    by_cases hne : e.2.value = ""
    · rw [hne] at hval
      obtain ⟨h1, h2⟩ := hspec.2.2 hval
      exact ⟨e, he, hgt, hmax, Or.inr ⟨hne, h1, h2⟩⟩
    · obtain ⟨h1, h2⟩ := hspec.2.1 e.2.value hne hval
      exact ⟨e, he, hgt, hmax, Or.inl ⟨hne, h1, h2⟩⟩
  · intro hall
    exact hspec.1 (fuzzyGet_none tq (normalizeKey key) (cleanExpired tq c)
      (by rw [hc1t]; exact hall))

end CacheUtils.SuggestionCache

/-- C4 counterexample: the original hit case fails for an empty stored
value — the live entry `"xabc"` (stored value `""`) scores 0.95 > 0.8
against the query `"abc"`, yet `get` returns `none` and counts a miss
(the source tests the fuzzy result for truthiness before returning it),
not the highest-scoring entry's value. -/
theorem c4_counterexample :
    mkRat 8 10 < CacheUtils.SuggestionCache.getSimilarity
      (CacheUtils.SuggestionCache.lastFewWords
        (CacheUtils.SuggestionCache.normalizeKey "abc")) "xabc"
    ∧ (CacheUtils.SuggestionCache.get 50 "abc"
        (⟨[("xabc", ⟨"", 100, 0⟩)],
          CacheUtils.DEFAULT_CONFIG, 0, 0, none⟩ : CacheUtils.SuggestionCache)).1 = none
    ∧ (CacheUtils.SuggestionCache.get 50 "abc"
        (⟨[("xabc", ⟨"", 100, 0⟩)],
          CacheUtils.DEFAULT_CONFIG, 0, 0, none⟩ : CacheUtils.SuggestionCache)).2.misses
      = 0 + 1 := by
  decide

/-- C4 witness: a live entry `"the quick brown fox"` with the non-empty
stored value `"jumps"` scores 0.95 > 0.8 against the query
`"brown fox"` (hit case of the disjunction, hit counter increments),
and a live entry `"zzzz"` scores 0 ≤ 0.8 against `"abc"` (miss case,
miss counter increments). -/
theorem c4_fuzzy_threshold_witness :
    (∃ e ∈ (CacheUtils.SuggestionCache.cleanExpired 50
        (⟨[("the quick brown fox", ⟨"jumps", 100, 0⟩)],
          CacheUtils.DEFAULT_CONFIG, 0, 0, none⟩ : CacheUtils.SuggestionCache)).entries,
      mkRat 8 10 < CacheUtils.SuggestionCache.getSimilarity
          (CacheUtils.SuggestionCache.lastFewWords
            (CacheUtils.SuggestionCache.normalizeKey "brown fox")) e.1
      ∧ (∀ e2 ∈ (CacheUtils.SuggestionCache.cleanExpired 50
            (⟨[("the quick brown fox", ⟨"jumps", 100, 0⟩)],
              CacheUtils.DEFAULT_CONFIG, 0, 0, none⟩ : CacheUtils.SuggestionCache)).entries,
          CacheUtils.SuggestionCache.getSimilarity
            (CacheUtils.SuggestionCache.lastFewWords
              (CacheUtils.SuggestionCache.normalizeKey "brown fox")) e2.1
            ≤ CacheUtils.SuggestionCache.getSimilarity
                (CacheUtils.SuggestionCache.lastFewWords
                  (CacheUtils.SuggestionCache.normalizeKey "brown fox")) e.1)
      ∧ ((e.2.value ≠ ""
            ∧ (CacheUtils.SuggestionCache.get 50 "brown fox"
                (⟨[("the quick brown fox", ⟨"jumps", 100, 0⟩)],
                  CacheUtils.DEFAULT_CONFIG, 0, 0, none⟩ : CacheUtils.SuggestionCache)).1
              = some e.2.value
            ∧ (CacheUtils.SuggestionCache.get 50 "brown fox"
                (⟨[("the quick brown fox", ⟨"jumps", 100, 0⟩)],
                  CacheUtils.DEFAULT_CONFIG, 0, 0, none⟩ : CacheUtils.SuggestionCache)).2.hits
              = 0 + 1)
          ∨ (e.2.value = ""
            ∧ (CacheUtils.SuggestionCache.get 50 "brown fox"
                (⟨[("the quick brown fox", ⟨"jumps", 100, 0⟩)],
                  CacheUtils.DEFAULT_CONFIG, 0, 0, none⟩ : CacheUtils.SuggestionCache)).1
              = none
            ∧ (CacheUtils.SuggestionCache.get 50 "brown fox"
                (⟨[("the quick brown fox", ⟨"jumps", 100, 0⟩)],
                  CacheUtils.DEFAULT_CONFIG, 0, 0, none⟩ : CacheUtils.SuggestionCache)).2.misses
              = 0 + 1)))
    ∧ ((CacheUtils.SuggestionCache.get 60 "abc"
          (⟨[("zzzz", ⟨"w", 100, 0⟩)],
            CacheUtils.DEFAULT_CONFIG, 0, 0, none⟩ : CacheUtils.SuggestionCache)).1 = none
        ∧ (CacheUtils.SuggestionCache.get 60 "abc"
            (⟨[("zzzz", ⟨"w", 100, 0⟩)],
              CacheUtils.DEFAULT_CONFIG, 0, 0, none⟩ : CacheUtils.SuggestionCache)).2.misses
          = 0 + 1) :=
  ⟨(CacheUtils.SuggestionCache.c4_fuzzy_threshold
      (⟨[("the quick brown fox", ⟨"jumps", 100, 0⟩)],
        CacheUtils.DEFAULT_CONFIG, 0, 0, none⟩ : CacheUtils.SuggestionCache)
      "brown fox" 50 (by decide) (by decide) (by decide)).1 (by decide),
   (CacheUtils.SuggestionCache.c4_fuzzy_threshold
      (⟨[("zzzz", ⟨"w", 100, 0⟩)],
        CacheUtils.DEFAULT_CONFIG, 0, 0, none⟩ : CacheUtils.SuggestionCache)
      "abc" 60 (by decide) (by decide) (by decide)).2 (by decide)⟩

namespace CacheUtils.SuggestionCache

theorem oldStep_inv (processed : EntryList) (acc : Option (String × ℕ))
    (e : String × CacheItem) (h : OldInv processed acc) :
    OldInv (processed ++ [e]) (oldStep acc e) := by
  unfold oldStep
  cases acc with
  | none =>
    have hp : processed = [] := h
    subst hp
    refine ⟨⟨e.2, ?_, rfl⟩, ?_⟩
    · simp
    · intro e' he'
      simp only [List.nil_append, List.mem_singleton] at he'
      subst he'
      exact le_refl _
  | some kt =>
    obtain ⟨k0, t0⟩ := kt
    obtain ⟨⟨it0, hit0, hla0⟩, hmin0⟩ := h
    show OldInv (processed ++ [e])
      (if e.2.lastAccessed < t0 then some (e.1, e.2.lastAccessed) else some (k0, t0))
    by_cases hlt : e.2.lastAccessed < t0
    · rw [if_pos hlt]
      refine ⟨⟨e.2, ?_, rfl⟩, ?_⟩
      · simp
      · intro e' he'
        rcases List.mem_append.1 he' with h' | h'
        · exact le_trans (le_of_lt hlt) (hmin0 e' h')
        · simp only [List.mem_singleton] at h'
          subst h'
          exact le_refl _
    · rw [if_neg hlt]
      refine ⟨⟨it0, List.mem_append_left _ hit0, hla0⟩, ?_⟩
      intro e' he'
      rcases List.mem_append.1 he' with h' | h'
      · exact hmin0 e' h'
      · simp only [List.mem_singleton] at h'
        subst h'
        exact le_of_not_lt hlt

theorem oldFold_inv :
    ∀ (l processed : EntryList) (acc : Option (String × ℕ)),
      OldInv processed acc → OldInv (processed ++ l) (l.foldl oldStep acc) := by
  intro l
  induction l with
  | nil =>
    intro processed acc h
    simpa using h
  | cons e t ih =>
    intro processed acc h
    have h2 := ih (processed ++ [e]) _ (oldStep_inv processed acc e h)
    simpa [List.append_assoc] using h2

theorem findOldest_spec (l : EntryList) (h : l ≠ []) :
    ∃ k t, findOldest l = some (k, t)
      ∧ (∃ it, (k, it) ∈ l ∧ it.lastAccessed = t)
      ∧ ∀ e ∈ l, t ≤ e.2.lastAccessed := by
  have hb : OldInv l (findOldest l) := by
    have h0 : OldInv [] none := rfl
    simpa using oldFold_inv l [] none h0
  cases hf : findOldest l with
  | none =>
    rw [hf] at hb
    exact absurd hb h
  | some kt =>
    obtain ⟨k0, t0⟩ := kt
    rw [hf] at hb
    exact ⟨k0, t0, rfl, hb.1, hb.2⟩

theorem mapDelete_length (k : String) (l : EntryList) (h : ∃ it, (k, it) ∈ l) :
    (mapDelete k l).length + 1 = l.length := by
  induction l with
  | nil => simp at h
  | cons e t ih =>
    obtain ⟨k', v'⟩ := e
    by_cases hk : k' = k
    · subst hk
      simp [mapDelete]
    · obtain ⟨it, hit⟩ := h
      rcases List.mem_cons.1 hit with heq | hmem
      · exact absurd (congrArg Prod.fst heq).symm hk
      · have := ih ⟨it, hmem⟩
        simp only [mapDelete, if_neg hk, List.length_cons]
        omega

theorem mapSet_length (k : String) (v : CacheItem) (l : EntryList) :
    (mapSet k v l).length ≤ l.length + 1 := by
  induction l with
  | nil => simp [mapSet]
  | cons e t ih =>
    obtain ⟨k', v'⟩ := e
    by_cases hk : k' = k
    · simp only [mapSet, if_pos hk, List.length_cons]
      omega
    · simp only [mapSet, if_neg hk, List.length_cons]
      omega

theorem liveCount_le_length (now : ℕ) (c : SuggestionCache) :
    liveCount now c ≤ c.entries.length :=
  List.length_filter_le _ _

theorem length_set (now : ℕ) (k v : String) (c : SuggestionCache)
    (hmax : 1 ≤ c.config.maxSize) (hlen : c.entries.length ≤ c.config.maxSize) :
    (set now k v c).entries.length ≤ c.config.maxSize := by
  rw [entries_set]
  have hclean : (cleanExpired now c).entries.length ≤ c.entries.length := by
    rw [entries_cleanExpired]
    exact List.length_filter_le _ _
  by_cases hfull : (cleanExpired now c).config.maxSize ≤ (cleanExpired now c).entries.length
  · rw [config_cleanExpired] at hfull
    have hne : (cleanExpired now c).entries ≠ [] := by
      intro hnil
      rw [hnil] at hfull
      simp only [List.length_nil, Nat.le_zero] at hfull
      omega
    obtain ⟨k0, t0, hfo, ⟨it0, hmem, _⟩, _⟩ := findOldest_spec (cleanExpired now c).entries hne
    have hev : (evictIfFull (cleanExpired now c)).entries
        = mapDelete k0 (cleanExpired now c).entries := by
      unfold evictIfFull
      rw [if_pos (by rw [config_cleanExpired]; exact hfull), hfo]
    rw [hev]
    have hdel := mapDelete_length k0 (cleanExpired now c).entries ⟨it0, hmem⟩
    have hms := mapSet_length (normalizeKey k)
      { value := v, expiresAt := now + c.config.ttl, lastAccessed := now }
      (mapDelete k0 (cleanExpired now c).entries)
    omega
  · have hev : evictIfFull (cleanExpired now c) = cleanExpired now c := by
      unfold evictIfFull
      rw [if_neg hfull]
    rw [hev]
    have hms := mapSet_length (normalizeKey k)
      { value := v, expiresAt := now + c.config.ttl, lastAccessed := now }
      (cleanExpired now c).entries
    rw [config_cleanExpired] at hfull
    omega

theorem config_runSets (ops : List (ℕ × String × String)) :
    ∀ (c : SuggestionCache), (runSets c ops).config = c.config := by
  induction ops with
  | nil => intro c; rfl
  | cons op t ih =>
    intro c
    obtain ⟨tt, k, v⟩ := op
    rw [runSets, ih (set tt k v c), config_set]

theorem length_runSets (ops : List (ℕ × String × String)) :
    ∀ (c : SuggestionCache), 1 ≤ c.config.maxSize →
      c.entries.length ≤ c.config.maxSize →
      (runSets c ops).entries.length ≤ c.config.maxSize := by
  induction ops with
  | nil =>
    intro c _ hlen
    exact hlen
  | cons op t ih =>
    intro c hmax hlen
    obtain ⟨tt, k, v⟩ := op
    rw [runSets]
    have h1 := ih (set tt k v c) (by rw [config_set]; exact hmax)
      (by rw [config_set]; exact length_set tt k v c hmax hlen)
    rw [config_set] at h1
    exact h1

/-- C3: (a) over any sequence of `set` calls on a cache of capacity at
least 1, the number of stored entries — hence also the number of live
(non-expired) entries — never exceeds `maxSize`; (b) any `set` issued
while the cache is at capacity (after expiry cleanup) removes exactly
one entry, one whose `lastAccessed` is minimal among all current
entries, before inserting the new normalized key. -/
theorem c3_capacity_lru_eviction (cfg : CacheConfig) (ops : List (ℕ × String × String))
    (tnow t : ℕ) (k v : String) (c : SuggestionCache)
    (hmax : 1 ≤ cfg.maxSize) (hcfg : c.config = cfg)
    (hfull : cfg.maxSize ≤ (cleanExpired t c).entries.length) :
    ((runSets (mkCache cfg) ops).entries.length ≤ cfg.maxSize
      ∧ liveCount tnow (runSets (mkCache cfg) ops) ≤ cfg.maxSize)
    ∧ (∃ k0 t0, findOldest (cleanExpired t c).entries = some (k0, t0)
        ∧ (∃ it, (k0, it) ∈ (cleanExpired t c).entries ∧ it.lastAccessed = t0)
        ∧ (∀ e ∈ (cleanExpired t c).entries, t0 ≤ e.2.lastAccessed)
        ∧ (set t k v c).entries
            = mapSet (normalizeKey k)
                { value := v, expiresAt := t + cfg.ttl, lastAccessed := t }
                (mapDelete k0 (cleanExpired t c).entries)) := by
  constructor
  · have hlen := length_runSets ops (mkCache cfg) hmax (by simp [mkCache])
    exact ⟨hlen, le_trans (liveCount_le_length tnow _) hlen⟩
  · have hne : (cleanExpired t c).entries ≠ [] := by
      intro hnil
      rw [hnil] at hfull
      simp only [List.length_nil, Nat.le_zero] at hfull
      omega
    obtain ⟨k0, t0, hfo, hwit, hmin⟩ := findOldest_spec (cleanExpired t c).entries hne
    refine ⟨k0, t0, hfo, hwit, hmin, ?_⟩
    rw [entries_set]
    have hev : (evictIfFull (cleanExpired t c)).entries
        = mapDelete k0 (cleanExpired t c).entries := by
      unfold evictIfFull
      rw [if_pos (by rw [config_cleanExpired, hcfg]; exact hfull), hfo]
    rw [hev, hcfg]

end CacheUtils.SuggestionCache

/-- C3 witness: a capacity-2 cache over three inserts never exceeds two
entries, and the third insert (issued at capacity) evicts exactly the
least recently accessed key. -/
theorem c3_capacity_lru_eviction_witness :
    ((CacheUtils.SuggestionCache.runSets
        (CacheUtils.SuggestionCache.mkCache ⟨2, 1000, true, mkRat 8 10⟩)
        [(0, "aaaa", "1"), (1, "bbbb", "2"), (2, "cccc", "3")]).entries.length ≤ 2
      ∧ CacheUtils.SuggestionCache.liveCount 3
          (CacheUtils.SuggestionCache.runSets
            (CacheUtils.SuggestionCache.mkCache ⟨2, 1000, true, mkRat 8 10⟩)
            [(0, "aaaa", "1"), (1, "bbbb", "2"), (2, "cccc", "3")]) ≤ 2)
    ∧ (∃ k0 t0, CacheUtils.SuggestionCache.findOldest
          (CacheUtils.SuggestionCache.cleanExpired 2
            (CacheUtils.SuggestionCache.runSets
              (CacheUtils.SuggestionCache.mkCache ⟨2, 1000, true, mkRat 8 10⟩)
              [(0, "aaaa", "1"), (1, "bbbb", "2")])).entries = some (k0, t0)
        ∧ (∃ it, (k0, it) ∈ (CacheUtils.SuggestionCache.cleanExpired 2
            (CacheUtils.SuggestionCache.runSets
              (CacheUtils.SuggestionCache.mkCache ⟨2, 1000, true, mkRat 8 10⟩)
              [(0, "aaaa", "1"), (1, "bbbb", "2")])).entries ∧ it.lastAccessed = t0)
        ∧ (∀ e ∈ (CacheUtils.SuggestionCache.cleanExpired 2
            (CacheUtils.SuggestionCache.runSets
              (CacheUtils.SuggestionCache.mkCache ⟨2, 1000, true, mkRat 8 10⟩)
              [(0, "aaaa", "1"), (1, "bbbb", "2")])).entries, t0 ≤ e.2.lastAccessed)
        ∧ (CacheUtils.SuggestionCache.set 2 "cccc" "3"
            (CacheUtils.SuggestionCache.runSets
              (CacheUtils.SuggestionCache.mkCache ⟨2, 1000, true, mkRat 8 10⟩)
              [(0, "aaaa", "1"), (1, "bbbb", "2")])).entries
          = CacheUtils.mapSet
              (CacheUtils.SuggestionCache.normalizeKey "cccc")
              { value := "3", expiresAt := 2 + 1000, lastAccessed := 2 }
              (CacheUtils.mapDelete k0
                (CacheUtils.SuggestionCache.cleanExpired 2
                  (CacheUtils.SuggestionCache.runSets
                    (CacheUtils.SuggestionCache.mkCache ⟨2, 1000, true, mkRat 8 10⟩)
                    [(0, "aaaa", "1"), (1, "bbbb", "2")])).entries)) :=
  ⟨(CacheUtils.SuggestionCache.c3_capacity_lru_eviction ⟨2, 1000, true, mkRat 8 10⟩
      [(0, "aaaa", "1"), (1, "bbbb", "2"), (2, "cccc", "3")] 3 2 "cccc" "3"
      (CacheUtils.SuggestionCache.runSets
        (CacheUtils.SuggestionCache.mkCache ⟨2, 1000, true, mkRat 8 10⟩)
        [(0, "aaaa", "1"), (1, "bbbb", "2")])
      (by decide) (by decide) (by decide)).1,
   (CacheUtils.SuggestionCache.c3_capacity_lru_eviction ⟨2, 1000, true, mkRat 8 10⟩
      [(0, "aaaa", "1"), (1, "bbbb", "2"), (2, "cccc", "3")] 3 2 "cccc" "3"
      (CacheUtils.SuggestionCache.runSets
        (CacheUtils.SuggestionCache.mkCache ⟨2, 1000, true, mkRat 8 10⟩)
        [(0, "aaaa", "1"), (1, "bbbb", "2")])
      (by decide) (by decide) (by decide)).2⟩
